import Mathlib

set_option maxHeartbeats 2000000
set_option maxRecDepth 8000
set_option linter.unusedVariables false

/-
Verification of the SoulC compiler (src/src/compiler/main.cpp and
src/src/compiler/lexer.hpp) against its natural-language specification.
The C++ sources are shallowly embedded below: bytes are naturals < 256,
C `int` values are integers wrapped to 32-bit two's complement, stateful
parsing threads an explicit state record, and loops whose C++ versions can
fail to terminate are given a fuel argument (returning `none` when the
fuel runs out, which over-approximates divergence).
-/

namespace Casm

/-! ## 32-bit integer model -/

/-- Reinterpret a natural number as a signed 32-bit value (two's complement),
as the C++ `int` arithmetic in the compiler does on the target platform. -/
def int32ofNat (u : Nat) : Int :=
  if u % 4294967296 < 2147483648 then ((u % 4294967296 : Nat) : Int)
  else ((u % 4294967296 : Nat) : Int) - 4294967296

/-- The unsigned 32-bit representation of a signed value. -/
def u32ofInt (v : Int) : Nat := (v.emod 4294967296).toNat

/-- Wrap an integer to the signed 32-bit range (models overflow of C `int`). -/
def wrap32 (v : Int) : Int := int32ofNat (u32ofInt v)

/-- `Compiler::emitInt`: big-endian bytes of a 32-bit value
(`(val >> 24) & 0xFF`, `(val >> 16) & 0xFF`, `(val >> 8) & 0xFF`, `val & 0xFF`). -/
def encodeInt32 (v : Int) : List Nat :=
  let u := u32ofInt v
  [u / 16777216 % 256, u / 65536 % 256, u / 256 % 256, u % 256]

/-- The decode in `Compiler::emitBinaryOp`:
`(b3 << 24) | (b2 << 16) | (b1 << 8) | b0` read back as a signed `int`. -/
def decodeI32 (b3 b2 b1 b0 : Nat) : Int :=
  int32ofNat (b3 * 16777216 + b2 * 65536 + b1 * 256 + b0)

/-- Big-endian 4-byte read at position `p` of a byte buffer, as a natural
number (used to state properties of patched jump targets). -/
def decodeBE (bc : List Nat) (p : Nat) : Nat :=
  bc.getD p 0 * 16777216 + bc.getD (p+1) 0 * 65536 +
    bc.getD (p+2) 0 * 256 + bc.getD (p+3) 0

/-! ## Tokens (lexer.hpp) -/

inductive TokenType where
  | IDENTIFIER | KEYWORD | INTEGER | STRING
  | PLUS | MINUS | STAR | SLASH
  | EQUALS | EQUALS_EQUALS
  | LPAREN | RPAREN | LBRACE | RBRACE
  | COLON | SEMICOLON | COMMA | DOT
  | AMPERSAND | ARROW
  | LBRACKET | RBRACKET
  | PLUS_PLUS | MINUS_MINUS
  | PLUS_EQ | MINUS_EQ | STAR_EQ | SLASH_EQ
  | LT | GT | LE | GE
  | LSHIFT | RSHIFT | LSHIFT_EQ | RSHIFT_EQ
  | MOD | MOD_EQ
  | COLON_EQUALS
  | INDENT | DEDENT
  | FSTRING_PART | LBRACE_EXP | RBRACE_EXP
  | LAND | LOR | NOT | NOT_EQ
  | TILDE | CARET | PIPE
  | AND_EQ | OR_EQ | XOR_EQ
  | END_OF_FILE | UNKNOWN
deriving DecidableEq, Repr

structure Token where
  type : TokenType
  value : String
  line : Nat
deriving DecidableEq, Repr

/-! ## Lexer (lexer.hpp, class Lexer) -/

/-- `source[i]`; like `std::string::operator[]` this yields the null
character at the one-past-the-end position. -/
def sget (src : List Char) (i : Nat) : Char := src.getD i (Char.ofNat 0)

/-- C `isspace` for the default locale. -/
def isCppSpace (c : Char) : Bool :=
  c = ' ' || c = '\t' || c = '\n' || c = '\r' ||
    c = Char.ofNat 11 || c = Char.ofNat 12

def lbraceChar : Char := Char.ofNat 123
def rbraceChar : Char := Char.ofNat 125

/-- The words that `Lexer::readIdentifier` maps to `TokenType::KEYWORD`. -/
def keywordWords : List String :=
  ["int", "if", "else", "while", "def", "return", "class", "import",
   "using", "namespace", "static", "void", "public", "for",
   "in", "try", "except", "finally", "as", "raise",
   "continue", "True", "False", "None", "private", "protected",
   "typedef", "struct", "union", "enum", "bool", "true", "false",
   "alignas", "alignof", "asm", "auto", "break", "case",
   "catch", "char", "char8_t", "char16_t", "char32_t", "concept",
   "const", "consteval", "constexpr", "constinit", "const_cast", "co_await",
   "co_return", "co_yield", "decltype", "default", "delete", "do",
   "double", "dynamic_cast", "explicit", "export", "extern", "float",
   "friend", "goto", "inline", "long", "module", "mutable",
   "new", "noexcept", "nullptr", "operator", "register", "reinterpret_cast",
   "requires", "short", "signed", "sizeof", "static_assert", "static_cast",
   "switch", "template", "this", "thread_local", "throw", "typeid",
   "typename", "unsigned", "virtual", "volatile", "wchar_t",
   "_Alignas", "_Alignof", "_Atomic", "_Bool", "_Complex", "_Generic",
   "_Imaginary", "_Noreturn", "_Static_assert", "_Thread_local",
   "restrict", "typeof", "typeof_unqual",
   "pass", "del", "global", "nonlocal", "lambda", "with",
   "yield", "async", "await", "from", "elif", "is",
   "assert", "match", "__module__", "__endmodule__"]

/-- The alternative operator spellings, which resolve directly to operator
token kinds in `Lexer::readIdentifier`. -/
def altOperatorWords : List (String × TokenType) :=
  [("and", .LAND), ("or", .LOR), ("not", .NOT), ("not_eq", .NOT_EQ),
   ("bitand", .AMPERSAND), ("bitor", .PIPE), ("compl", .TILDE),
   ("xor", .CARET), ("and_eq", .AND_EQ), ("or_eq", .OR_EQ), ("xor_eq", .XOR_EQ)]

/-- The keyword recognition table of `Lexer::readIdentifier` (a `std::map`;
only lookups are performed, so the entry order is irrelevant). -/
def keywordTable : List (String × TokenType) :=
  keywordWords.map (fun s => (s, TokenType.KEYWORD)) ++ altOperatorWords

/-- `Lexer::readNumber`: digits and dots. -/
def readNumber (src : List Char) (pos line : Nat) : Token × Nat :=
  let cs := (src.drop pos).takeWhile (fun c => c.isDigit || c = '.')
  ({ type := .INTEGER, value := String.mk cs, line := line }, pos + cs.length)

/-- `Lexer::readIdentifier`. -/
def readIdentifier (src : List Char) (pos line : Nat) : Token × Nat :=
  let cs := (src.drop pos).takeWhile (fun c => c.isAlphanum || c = '_')
  let val := String.mk cs
  let ty := (keywordTable.lookup val).getD .IDENTIFIER
  ({ type := ty, value := val, line := line }, pos + cs.length)

/-- `Lexer::readString`. -/
def readString (src : List Char) (pos line : Nat) : Token × Nat :=
  let cs := (src.drop (pos + 1)).takeWhile (fun c => c ≠ '"')
  let after := pos + 1 + cs.length
  ({ type := .STRING, value := String.mk cs, line := line },
   if after < src.length then after + 1 else after)

/-- The scanning loop of `Lexer::readTripleString`. The first argument is
structural fuel, always called as `src.length - i` so that running out of
fuel coincides exactly with the loop guard `i + 2 < src.length` failing. -/
def tripleScan (src : List Char) : Nat → Nat → Nat → List Char →
    List Char × Nat × Nat
  | 0, i, line, acc => (acc, i, line)
  | r+1, i, line, acc =>
    if i + 2 < src.length ∧
        ¬(sget src i = '"' ∧ sget src (i+1) = '"' ∧ sget src (i+2) = '"') then
      tripleScan src r (i+1) (if sget src i = '\n' then line + 1 else line)
        (acc ++ [sget src i])
    else (acc, i, line)

/-- `Lexer::readTripleString`. -/
def readTripleString (src : List Char) (pos line : Nat) : Token × Nat × Nat :=
  let r := tripleScan src (src.length - (pos + 3)) (pos + 3) line []
  ({ type := .STRING, value := String.mk r.1, line := line }, r.2.1 + 3, r.2.2)

/-- `Lexer::readOperator`. -/
def readOperator (src : List Char) (pos line : Nat) : Token × Nat :=
  let current := sget src pos
  let p := pos + 1
  let len := src.length
  if current = '+' then
    if sget src p = '+' then ({type := .PLUS_PLUS, value := "++", line := line}, p+1)
    else if sget src p = '=' then ({type := .PLUS_EQ, value := "+=", line := line}, p+1)
    else ({type := .PLUS, value := "+", line := line}, p)
  else if current = '-' then
    if sget src p = '-' then ({type := .MINUS_MINUS, value := "--", line := line}, p+1)
    else if sget src p = '>' then ({type := .ARROW, value := "->", line := line}, p+1)
    else if sget src p = '=' then ({type := .MINUS_EQ, value := "-=", line := line}, p+1)
    else ({type := .MINUS, value := "-", line := line}, p)
  else if current = '*' then
    if sget src p = '=' then ({type := .STAR_EQ, value := "*=", line := line}, p+1)
    else ({type := .STAR, value := "*", line := line}, p)
  else if current = '/' then
    if sget src p = '=' then ({type := .SLASH_EQ, value := "/=", line := line}, p+1)
    else ({type := .SLASH, value := "/", line := line}, p)
  else if current = '%' then
    if sget src p = '=' then ({type := .MOD_EQ, value := "%=", line := line}, p+1)
    else ({type := .MOD, value := "%", line := line}, p)
  else if current = '<' then
    if sget src p = '<' then
      if p + 1 < len ∧ sget src (p+1) = '=' then
        ({type := .LSHIFT_EQ, value := "<<=", line := line}, p+2)
      else ({type := .LSHIFT, value := "<<", line := line}, p+1)
    else if sget src p = '=' then ({type := .LE, value := "<=", line := line}, p+1)
    else ({type := .LT, value := "<", line := line}, p)
  else if current = '>' then
    if sget src p = '>' then
      if p + 1 < len ∧ sget src (p+1) = '=' then
        ({type := .RSHIFT_EQ, value := ">>=", line := line}, p+2)
      else ({type := .RSHIFT, value := ">>", line := line}, p+1)
    else if sget src p = '=' then ({type := .GE, value := ">=", line := line}, p+1)
    else ({type := .GT, value := ">", line := line}, p)
  else if current = '&' then
    if p < len ∧ sget src p = '&' then ({type := .LAND, value := "&&", line := line}, p+1)
    else if p < len ∧ sget src p = '=' then ({type := .AND_EQ, value := "&=", line := line}, p+1)
    else ({type := .AMPERSAND, value := "&", line := line}, p)
  else if current = '|' then
    if p < len ∧ sget src p = '|' then ({type := .LOR, value := "||", line := line}, p+1)
    else if p < len ∧ sget src p = '=' then ({type := .OR_EQ, value := "|=", line := line}, p+1)
    else ({type := .PIPE, value := "|", line := line}, p)
  else if current = '!' then
    if p < len ∧ sget src p = '=' then ({type := .NOT_EQ, value := "!=", line := line}, p+1)
    else ({type := .NOT, value := "!", line := line}, p)
  else if current = '~' then ({type := .TILDE, value := "~", line := line}, p)
  else if current = '^' then
    if p < len ∧ sget src p = '=' then ({type := .XOR_EQ, value := "^=", line := line}, p+1)
    else ({type := .CARET, value := "^", line := line}, p)
  else if current = '.' then ({type := .DOT, value := ".", line := line}, p)
  else if current = '=' then
    if p < len ∧ sget src p = '=' then
      ({type := .EQUALS_EQUALS, value := "==", line := line}, p+1)
    else ({type := .EQUALS, value := "=", line := line}, p)
  else if current = '(' then ({type := .LPAREN, value := "(", line := line}, p)
  else if current = ')' then ({type := .RPAREN, value := ")", line := line}, p)
  else if current = lbraceChar then
    ({type := .LBRACE, value := String.mk [lbraceChar], line := line}, p)
  else if current = rbraceChar then
    ({type := .RBRACE, value := String.mk [rbraceChar], line := line}, p)
  else if current = '[' then ({type := .LBRACKET, value := "[", line := line}, p)
  else if current = ']' then ({type := .RBRACKET, value := "]", line := line}, p)
  else if current = ':' then
    if p < len ∧ sget src p = '=' then
      ({type := .COLON_EQUALS, value := ":=", line := line}, p+1)
    else ({type := .COLON, value := ":", line := line}, p)
  else if current = ';' then ({type := .SEMICOLON, value := ";", line := line}, p)
  else if current = ',' then ({type := .COMMA, value := ",", line := line}, p)
  else ({type := .UNKNOWN, value := String.mk [current], line := line}, p)

/-- The indentation-measuring loop at the start of a physical line
(tab counts 4 columns, space 1). Returns (indent, new position). The first
argument is structural fuel, always `src.length - i`, so fuel 0 coincides
with the guard `i < src.length` failing. -/
def countIndent (src : List Char) : Nat → Nat → Nat → Nat × Nat
  | 0, i, acc => (acc, i)
  | r+1, i, acc =>
    if i < src.length ∧ (sget src i = ' ' ∨ sget src i = '\t') then
      countIndent src r (i+1) (acc + (if sget src i = '\t' then 4 else 1))
    else (acc, i)

/-- `while (indent < indentStack.back()) { pop; emit DEDENT }`.
The stack is stored with its top at the head. -/
def dedentDrain (indent line : Nat) : List Nat → List Token × List Nat
  | [] => ([], [])
  | top :: rest =>
    if indent < top then
      let r := dedentDrain indent line rest
      ({ type := .DEDENT, value := "", line := line } :: r.1, r.2)
    else ([], top :: rest)

/-- `while (indentStack.size() > 1) { pop; emit DEDENT }` at end of input. -/
def finalDrain (line : Nat) : List Nat → List Token
  | [] => []
  | [_] => []
  | _ :: rest => { type := .DEDENT, value := "", line := line } :: finalDrain line rest

/-- Skip to the end of the current physical line
(`while pos < len && src[pos] != '\n'`); structural fuel `src.length - i`. -/
def skipToEolF (src : List Char) : Nat → Nat → Nat
  | 0, i => i
  | r+1, i =>
    if i < src.length ∧ sget src i ≠ '\n' then skipToEolF src r (i+1) else i

def skipToEol (src : List Char) (i : Nat) : Nat :=
  skipToEolF src (src.length - i) i

/-- The block-comment scan: `while (pos+1 < len && !(src[pos]=='*'&&src[pos+1]=='/'))`,
counting newlines; afterwards the caller adds 2. Returns (pos, line).
Structural fuel `src.length - i`. -/
def blockCommentScan (src : List Char) : Nat → Nat → Nat → Nat × Nat
  | 0, i, line => (i, line)
  | r+1, i, line =>
    if i + 1 < src.length ∧ ¬(sget src i = '*' ∧ sget src (i+1) = '/') then
      blockCommentScan src r (i+1) (if sget src i = '\n' then line + 1 else line)
    else (i, line)

/-- The brace-depth expression collector inside `Lexer::tokenizeFString`;
structural fuel `src.length - i`. -/
def collectBraceExpr (src : List Char) : Nat → Nat → Nat → List Char →
    List Char × Nat
  | 0, i, _, acc => (acc, i)
  | r+1, i, depth, acc =>
    if i < src.length ∧ depth ≠ 0 then
      let c := sget src i
      let d := if c = lbraceChar then depth + 1
               else if c = rbraceChar then depth - 1 else depth
      if d > 0 then collectBraceExpr src r (i+1) d (acc ++ [c]) else (acc, i)
    else (acc, i)

mutual

/-- The main loop of `Lexer::tokenize`. State: position, line, indent stack
(top first), accumulated tokens. Fuel bounds the recursion depth; `none`
means the fuel ran out. -/
def tokenizeLoop : Nat → List Char → Bool → Nat → Nat → List Nat →
    List Token → Option (List Token)
  | 0, _, _, _, _, _, _ => none
  | n+1, src, py, pos, line, indents, acc =>
    if pos < src.length then
      -- start-of-line indentation handling in python mode
      let ind :=
        if py ∧ (pos = 0 ∨ sget src (pos - 1) = '\n') then
          let m := countIndent src (src.length - pos) pos 0
          let indent := m.1
          let pos1 := m.2
          if indent > indents.headD 0 then
            (pos1, indent :: indents,
             acc ++ [{ type := .INDENT, value := Nat.repr indent, line := line }])
          else
            let d := dedentDrain indent line indents
            (pos1, d.2, acc ++ d.1)
        else (pos, indents, acc)
      let pos := ind.1
      let indents := ind.2.1
      let acc := ind.2.2
      if pos ≥ src.length then
        some (acc ++ finalDrain line indents ++
          [{ type := .END_OF_FILE, value := "", line := line }])
      else
        let current := sget src pos
        if isCppSpace current then
          tokenizeLoop n src py (pos + 1)
            (if current = '\n' then line + 1 else line) indents acc
        else if current = '#' then
          let dcs := (src.drop (pos+1)).takeWhile (fun c => ¬ isCppSpace c)
          let directive := String.mk dcs
          let pos2 := pos + 1 + dcs.length
          let pos3 := if directive = "define" ∨ directive = "include" then
              skipToEol src pos2 else pos2
          tokenizeLoop n src py pos3 line indents acc
        else if current = '/' ∧ pos + 1 < src.length ∧ sget src (pos+1) = '/' then
          tokenizeLoop n src py (skipToEol src pos) line indents acc
        else if current = '/' ∧ pos + 1 < src.length ∧ sget src (pos+1) = '*' then
          let r := blockCommentScan src (src.length - (pos + 2)) (pos + 2) line
          tokenizeLoop n src py (r.1 + 2) r.2 indents acc
        else
          -- (the `if (current == '\n') line++` in the source is unreachable:
          -- newline is consumed by the isspace branch above)
          if current.isDigit then
            let r := readNumber src pos line
            tokenizeLoop n src py r.2 line indents (acc ++ [r.1])
          else if current = '"' then
            if pos + 2 < src.length ∧ sget src (pos+1) = '"' ∧ sget src (pos+2) = '"' then
              let r := readTripleString src pos line
              tokenizeLoop n src py r.2.1 r.2.2 indents (acc ++ [r.1])
            else
              let r := readString src pos line
              tokenizeLoop n src py r.2 line indents (acc ++ [r.1])
          else if current = 'f' ∧ pos + 1 < src.length ∧ sget src (pos+1) = '"' then
            match fstringLoop n src py (pos + 2) line [] [] with
            | none => none
            | some r => tokenizeLoop n src py r.2.1 r.2.2 indents (acc ++ r.1)
          else if current.isAlpha ∨ current = '_' then
            let r := readIdentifier src pos line
            tokenizeLoop n src py r.2 line indents (acc ++ [r.1])
          else
            let r := readOperator src pos line
            tokenizeLoop n src py r.2 line indents (acc ++ [r.1])
    else
      some (acc ++ finalDrain line indents ++
        [{ type := .END_OF_FILE, value := "", line := line }])

/-- The loop of `Lexer::tokenizeFString`; `pos` is just past the opening
quote. Returns (tokens, position, line). -/
def fstringLoop : Nat → List Char → Bool → Nat → Nat → List Char →
    List Token → Option (List Token × Nat × Nat)
  | 0, _, _, _, _, _, _ => none
  | n+1, src, py, pos, line, val, acc =>
    if pos < src.length ∧ sget src pos ≠ '"' then
      if sget src pos = lbraceChar then
        let acc1 := acc ++
          (if val ≠ [] then
            [{ type := .FSTRING_PART, value := String.mk val, line := line }] else []) ++
          [{ type := .LBRACE_EXP, value := "\x7b", line := line }]
        let r := collectBraceExpr src (src.length - (pos + 1)) (pos + 1) 1 []
        let pos2 := if r.2 < src.length then r.2 + 1 else r.2
        match tokenizeLoop n r.1 py 0 1 [0] [] with
        | none => none
        | some inner =>
          let inner1 :=
            if inner ≠ [] ∧ (inner.getLast?.map Token.type = some .END_OF_FILE) then
              inner.dropLast else inner
          fstringLoop n src py pos2 line []
            (acc1 ++ inner1 ++ [{ type := .RBRACE_EXP, value := "\x7d", line := line }])
      else
        fstringLoop n src py (pos + 1) line (val ++ [sget src pos]) acc
    else
      let acc1 := acc ++
        (if val ≠ [] then
          [{ type := .FSTRING_PART, value := String.mk val, line := line }] else [])
      some (acc1, (if pos < src.length then pos + 1 else pos), line)

end

/-- `Lexer::tokenize` on a whole source string. -/
def tokenize (src : String) (pythonMode : Bool) : Option (List Token) :=
  tokenizeLoop (4 * src.length + 64) src.data pythonMode 0 1 [0] []

/-! ## Compiler (main.cpp, class Compiler)

Opcode bytes used below (from `enum OpCode`):
HALT 0x00, PUSH_INT 0x01, PUSH_STR 0x02, SYSCALL 0x03, STORE 0x04,
LOAD 0x05, ADD 0x06, SUB 0x07, MUL 0x08, DIV 0x09, JMP 0x0A, JZ 0x0B,
CALL 0x0C, RET 0x0D, FOR_ITER 0x0E, TRY_ENTER 0x0F, TRY_EXIT 0x10,
RAISE 0x11, MOD 0x12, LSHIFT 0x13, RSHIFT 0x14, BIT_AND 0x15, BIT_OR 0x16,
BIT_XOR 0x17, EQ 0x19 .. GE 0x1E, LOGIC_AND 0x1F, LOGIC_OR 0x20,
LOGIC_NOT 0x21, ABS 0x25, MIN 0x26, MAX 0x27, READ_ADDR 0xE2 (the
relocated enum value used by the unary `*` branch; the other address
reads/writes use the literals 0x52/0x53), LIST_NEW 0x95, LIST_APPEND 0x96,
DICT_NEW 0x92, DICT_SET 0x93. -/

structure TypeInfo where
  name : String
  size : Nat
  isPointer : Bool
  fields : List (String × Nat) := []
deriving DecidableEq, Repr

/-- The `types` map seeded in the `Compiler` constructor (split into chunks
only to keep elaboration fast; it is never mutated, only looked up). -/
def typesScalar : List (String × TypeInfo) :=
  [("int", ⟨"int", 4, false, []⟩), ("char", ⟨"char", 1, false, []⟩),
   ("void", ⟨"void", 0, false, []⟩), ("FILE", ⟨"void*", 4, true, []⟩),
   ("const", ⟨"void", 0, false, []⟩), ("size_t", ⟨"int", 4, false, []⟩),
   ("string", ⟨"string", 4, false, []⟩), ("Task", ⟨"void", 0, false, []⟩),
   ("var", ⟨"void", 0, false, []⟩), ("bool", ⟨"bool", 1, false, []⟩),
   ("_Bool", ⟨"bool", 1, false, []⟩), ("double", ⟨"double", 8, false, []⟩)]

def typesScalar2 : List (String × TypeInfo) :=
  [("float", ⟨"float", 4, false, []⟩), ("time_t", ⟨"int", 4, false, []⟩),
   ("Point", ⟨"Point", 8, false, [("x", 0), ("y", 4)]⟩),
   ("IntFloat", ⟨"IntFloat", 4, false, [("i", 0), ("f", 0)]⟩),
   ("Color", ⟨"int", 4, false, []⟩), ("short", ⟨"short", 2, false, []⟩),
   ("long", ⟨"long", 4, false, []⟩), ("signed", ⟨"int", 4, false, []⟩),
   ("unsigned", ⟨"unsigned", 4, false, []⟩), ("wchar_t", ⟨"wchar_t", 2, false, []⟩)]

def typesScalar3 : List (String × TypeInfo) :=
  [("char8_t", ⟨"char8_t", 1, false, []⟩), ("char16_t", ⟨"char16_t", 2, false, []⟩),
   ("char32_t", ⟨"char32_t", 4, false, []⟩), ("set", ⟨"set", 4, true, []⟩),
   ("dict", ⟨"dict", 4, true, []⟩), ("deque", ⟨"deque", 4, true, []⟩),
   ("queue", ⟨"queue", 4, true, []⟩), ("heap", ⟨"heap", 4, true, []⟩),
   ("tuple", ⟨"tuple", 4, true, []⟩)]

def typesList : List (String × TypeInfo) := typesScalar ++ typesScalar2 ++ typesScalar3

def lookupType (n : String) : Option TypeInfo := typesList.lookup n

/-- `types.count(v)` used as a boolean. -/
def hasType (n : String) : Bool := (lookupType n).isSome

/-- `Compiler::isDeclModifier`'s modifier set. -/
def declModifierWords : List String :=
  ["static", "extern", "public", "private", "protected", "async", "readonly",
   "sealed", "typedef", "alignas", "alignof", "asm", "auto", "const",
   "consteval", "constexpr", "constinit", "explicit", "export", "inline",
   "mutable", "register", "thread_local", "virtual", "volatile", "template",
   "typename", "concept", "requires", "noexcept", "friend", "restrict",
   "override", "final", "operator", "this", "new", "delete", "throw",
   "co_await", "co_return", "co_yield", "decltype", "_Alignas", "_Alignof",
   "_Atomic", "_Bool", "_Complex", "_Generic", "_Imaginary", "_Noreturn",
   "_Static_assert", "_Thread_local", "typeof", "typeof_unqual"]

def isDeclModifier (v : String) : Bool := declModifierWords.contains v

/-- Parser/emitter state: bytecode buffer, token position, symbol table and
module prefix of `class Compiler`. `jumps` is ghost instrumentation: the
byte offset of the 4-byte operand of every emitted JMP/JZ/FOR_ITER, recorded
so that theorems can speak about jump targets; it never influences the
computation of `bc`. -/
structure PState where
  bc : List Nat := []
  pos : Nat := 0
  symtab : List (String × Nat) := []
  modulePfx : String := ""
  jumps : List Nat := []
deriving DecidableEq, Repr

structure Ctx where
  tokens : List Token
  pythonMode : Bool
deriving Repr

def noTok : Token := { type := .UNKNOWN, value := "", line := 0 }

/-- `tokens[p]` (with a junk token out of range, where the C++ would be
reading out of bounds; all in-range accesses agree with the source). -/
def tokAt (ctx : Ctx) (p : Nat) : Token := ctx.tokens.getD p noTok

def nTokens (ctx : Ctx) : Nat := ctx.tokens.length

/-- `std::map::operator[]` assignment for the symbol table. -/
def symSet (k : String) (v : Nat) : List (String × Nat) → List (String × Nat)
  | [] => [(k, v)]
  | (k', v') :: rest => if k' = k then (k, v) :: rest else (k', v') :: symSet k v rest

def charByte (c : Char) : Nat := c.toNat % 256

/-- `Compiler::emitOp` / a raw `bytecode.push_back`. -/
def emitOp (op : Nat) (s : PState) : PState := { s with bc := s.bc ++ [op] }

/-- `Compiler::emitInt` (big-endian 32-bit). -/
def emitInt (v : Int) (s : PState) : PState := { s with bc := s.bc ++ encodeInt32 v }

/-- `Compiler::emitPushInt`. -/
def emitPushInt (v : Int) (s : PState) : PState := emitInt v (emitOp 1 s)

/-- `Compiler::emitString`: one length byte (`(uint8_t)s.length()`) then the
raw bytes. -/
def emitString (str : String) (s : PState) : PState :=
  { s with bc := s.bc ++ [str.length % 256] ++ str.data.map charByte }

/-- The escape processing of `Compiler::emitStringLiteral`. -/
def processEscapes : List Char → List Char
  | [] => []
  | '\\' :: next :: rest =>
    if next = 'n' then '\n' :: processEscapes rest
    else if next = 't' then '\t' :: processEscapes rest
    else if next = 'r' then '\r' :: processEscapes rest
    else if next = '\\' then '\\' :: processEscapes rest
    else if next = '"' then '"' :: processEscapes rest
    else '\\' :: processEscapes (next :: rest)
  | c :: rest => c :: processEscapes rest

/-- `Compiler::emitStringLiteral`. -/
def emitStringLiteral (str : String) (s : PState) : PState :=
  let processed := processEscapes str.data
  { s with bc := s.bc ++ [processed.length % 256] ++ processed.map charByte }

/-- `Compiler::emitSyscall`. -/
def emitSyscall (id : Nat) (s : PState) : PState := emitOp id (emitOp 3 s)

/-- Ghost instrumentation: remember a jump-operand offset. -/
def noteJump (p : Nat) (s : PState) : PState := { s with jumps := s.jumps ++ [p] }

/-- `Compiler::emitJump` (records the operand offset as ghost data). -/
def emitJump (op : Nat) (target : Int) (s : PState) : PState :=
  let s1 := emitOp op s
  noteJump s1.bc.length (emitInt target s1)

/-- `Compiler::patchInt`: overwrite 4 bytes big-endian at `p`. -/
def patchInt (p : Nat) (v : Int) (s : PState) : PState :=
  let b := encodeInt32 v
  { s with bc := ((((s.bc.set p (b.getD 0 0)).set (p+1) (b.getD 1 0)).set
      (p+2) (b.getD 2 0)).set (p+3) (b.getD 3 0)) }

/-- `Compiler::mangle`. -/
def mangle (s : PState) (name : String) : String :=
  if s.modulePfx = "" then name else s.modulePfx ++ name

def digitsVal : List Char → Nat → Nat
  | [], acc => acc
  | c :: r, acc => digitsVal r (acc * 10 + (c.toNat - 48))

/-- Model of `std::stoi` on the integer-literal token values the lexer
produces (digits possibly followed by dots): parse the leading digit run;
`none` models the exception (caught and turned into 0 by the compiler) for
an empty digit run or 32-bit signed overflow. -/
def cppStoi (str : String) : Option Int :=
  let ds := str.data.takeWhile Char.isDigit
  if ds = [] then none
  else if digitsVal ds 0 ≤ 2147483647 then some ((digitsVal ds 0 : Nat) : Int)
  else none

/-- `Compiler::getPrecedence` (`none` models the C++ `-1`). -/
def getPrecedence (t : Token) : Option Nat :=
  match t.type with
  | .LOR => some 1
  | .LAND => some 2
  | .PIPE => some 3
  | .CARET => some 4
  | .AMPERSAND => some 5
  | .EQUALS_EQUALS => some 6
  | .NOT_EQ => some 6
  | .LT => some 7
  | .LE => some 7
  | .GT => some 7
  | .GE => some 7
  | .LSHIFT => some 8
  | .RSHIFT => some 8
  | .PLUS => some 9
  | .MINUS => some 9
  | .STAR => some 10
  | .SLASH => some 10
  | .MOD => some 10
  | .COLON_EQUALS => some 0
  | _ => none

/-- The constant-folding computation in `Compiler::emitBinaryOp`:
`some result` when `optimized` stays true, `none` otherwise (comparison and
logical operators, and division or modulus by zero). Shift counts are
reduced mod 32 (the x86 behaviour; out-of-range shifts are undefined in the
C++ source). -/
def foldConst (ty : TokenType) (v1 v2 : Int) : Option Int :=
  match ty with
  | .PLUS => some (wrap32 (v1 + v2))
  | .MINUS => some (wrap32 (v1 - v2))
  | .STAR => some (wrap32 (v1 * v2))
  | .SLASH => if v2 = 0 then none else some (wrap32 (Int.tdiv v1 v2))
  | .MOD => if v2 = 0 then none else some (wrap32 (Int.tmod v1 v2))
  | .LSHIFT => some (wrap32 (v1 * ((2 : Int) ^ (v2.emod 32).toNat)))
  | .RSHIFT => some (Int.fdiv v1 ((2 : Int) ^ (v2.emod 32).toNat))
  | .AMPERSAND => some (int32ofNat (Nat.land (u32ofInt v1) (u32ofInt v2)))
  | .PIPE => some (int32ofNat (Nat.lor (u32ofInt v1) (u32ofInt v2)))
  | .CARET => some (int32ofNat (Nat.xor (u32ofInt v1) (u32ofInt v2)))
  | _ => none

/-- The opcode emitted by the switch at the end of `Compiler::emitBinaryOp`
(`none`: the `default: break` case emits nothing). -/
def binOpByte (ty : TokenType) : Option Nat :=
  match ty with
  | .PLUS => some 0x06
  | .MINUS => some 0x07
  | .STAR => some 0x08
  | .SLASH => some 0x09
  | .EQUALS_EQUALS => some 0x19
  | .NOT_EQ => some 0x1A
  | .LT => some 0x1B
  | .LE => some 0x1C
  | .GT => some 0x1D
  | .GE => some 0x1E
  | .LAND => some 0x1F
  | .LOR => some 0x20
  | .AMPERSAND => some 0x15
  | .PIPE => some 0x16
  | .CARET => some 0x17
  | .MOD => some 0x12
  | .LSHIFT => some 0x13
  | .RSHIFT => some 0x14
  | _ => none

/-- `Compiler::emitBinaryOp` with its peephole constant folding: if the
buffer holds at least ten bytes and the bytes ten and five back both equal
`PUSH_INT`, decode the two 32-bit operands, fold, drop the last ten bytes
and push the folded constant; otherwise append the operator's opcode. -/
def emitBinaryOp (ty : TokenType) (bc : List Nat) : List Nat :=
  let k := bc.length
  let opEmit : List Nat := match binOpByte ty with | some b => bc ++ [b] | none => bc
  if 10 ≤ k ∧ bc.getD (k-5) 0 = 1 ∧ bc.getD (k-10) 0 = 1 then
    let v2 := decodeI32 (bc.getD (k-4) 0) (bc.getD (k-3) 0) (bc.getD (k-2) 0) (bc.getD (k-1) 0)
    let v1 := decodeI32 (bc.getD (k-9) 0) (bc.getD (k-8) 0) (bc.getD (k-7) 0) (bc.getD (k-6) 0)
    match foldConst ty v1 v2 with
    | some r => bc.take (k - 10) ++ 1 :: encodeInt32 r
    | none => opEmit
  else opEmit

/-- The multi-word scalar-specifier test in `Compiler::parseTypeName`. -/
def isTypeSpec (v : String) : Bool :=
  v = "unsigned" ∨ v = "signed" ∨ v = "long" ∨ v = "short" ∨ v = "char" ∨
  v = "char8_t" ∨ v = "char16_t" ∨ v = "char32_t" ∨ v = "wchar_t" ∨
  v = "int" ∨ v = "float" ∨ v = "double" ∨ v = "void" ∨ v = "bool" ∨ v = "_Bool"

/-- The specifier-collecting loop of `Compiler::parseTypeName`; structural
fuel `nTokens ctx - pos`, so fuel 0 coincides with the guard
`pos < tokens.size()` failing. -/
def parseTypeNameLoop (ctx : Ctx) : Nat → Nat → String → String × Nat
  | 0, pos, acc => (acc, pos)
  | r+1, pos, acc =>
    if pos < nTokens ctx ∧ isTypeSpec (tokAt ctx pos).value then
      parseTypeNameLoop ctx r (pos + 1)
        (if acc = "" then (tokAt ctx pos).value else acc ++ " " ++ (tokAt ctx pos).value)
    else (acc, pos)

/-- `Compiler::parseTypeName`. -/
def parseTypeName (ctx : Ctx) (pos : Nat) : String × Nat :=
  let r := parseTypeNameLoop ctx (nTokens ctx - pos) pos ""
  if r.1 = "" ∧ r.2 < nTokens ctx ∧
      ((tokAt ctx r.2).type = .KEYWORD ∨ (tokAt ctx r.2).type = .IDENTIFIER) then
    ((tokAt ctx r.2).value, r.2 + 1)
  else r

/-- Substring containment, modelling `std::string::find(pat) != npos`. -/
def containsFrom (p : List Char) : List Char → Bool
  | [] => p.isEmpty
  | c :: t => p.isPrefixOf (c :: t) || containsFrom p t

def strContains (s pat : String) : Bool := containsFrom pat.data s.data

/-- `Compiler::getTypeSize`. -/
def getTypeSize (tn : String) : Nat :=
  match lookupType tn with
  | some ti => ti.size
  | none =>
    if strContains tn "double" then 8
    else if strContains tn "float" then 4
    else if strContains tn "short" then 2
    else if strContains tn "long" then 4
    else if strContains tn "char" ∧ strContains tn "32" then 4
    else if strContains tn "char" ∧ strContains tn "16" then 2
    else if strContains tn "char" then 1
    else if strContains tn "wchar" then 2
    else if strContains tn "unsigned" ∨ strContains tn "signed" ∨ strContains tn "int" then 4
    else 4

/-- `while (pos < size && !stop) pos++`; structural fuel `nTokens ctx - pos`. -/
def skipUntilF (ctx : Ctx) (stop : Token → Bool) : Nat → Nat → Nat
  | 0, pos => pos
  | r+1, pos =>
    if pos < nTokens ctx ∧ ¬ stop (tokAt ctx pos) then skipUntilF ctx stop r (pos + 1)
    else pos

def skipUntil (ctx : Ctx) (stop : Token → Bool) (pos : Nat) : Nat :=
  skipUntilF ctx stop (nTokens ctx - pos) pos

/-- The balanced-parenthesis skip inside the modifier helpers; structural
fuel `nTokens ctx - pos`. -/
def skipParenDepthF (ctx : Ctx) : Nat → Nat → Nat → Nat
  | 0, pos, _ => pos
  | r+1, pos, depth =>
    if pos < nTokens ctx ∧ depth > 0 then
      let d := if (tokAt ctx pos).type = .LPAREN then depth + 1
               else if (tokAt ctx pos).type = .RPAREN then depth - 1 else depth
      skipParenDepthF ctx r (pos + 1) d
    else pos

def skipParenDepth (ctx : Ctx) (pos depth : Nat) : Nat :=
  skipParenDepthF ctx (nTokens ctx - pos) pos depth

/-- `Compiler::skipAlignasAlignof`. -/
def skipAlignasAlignof (ctx : Ctx) (pos : Nat) : Nat :=
  if pos ≥ nTokens ctx then pos
  else
    let v := (tokAt ctx pos).value
    if v ≠ "alignas" ∧ v ≠ "alignof" ∧ v ≠ "_Alignas" ∧ v ≠ "_Alignof" then pos
    else
      let p := pos + 1
      if p < nTokens ctx ∧ (tokAt ctx p).type = .LPAREN then
        skipParenDepth ctx (p + 1) 1
      else p

/-- `Compiler::skipStaticAssert`. -/
def skipStaticAssert (ctx : Ctx) (pos : Nat) : Nat :=
  if pos ≥ nTokens ctx then pos
  else
    let v := (tokAt ctx pos).value
    if v ≠ "static_assert" ∧ v ≠ "_Static_assert" then pos
    else
      let p := pos + 1
      if p < nTokens ctx ∧ (tokAt ctx p).type = .LPAREN then
        let q := skipParenDepth ctx (p + 1) 1
        if q < nTokens ctx ∧ (tokAt ctx q).type = .SEMICOLON then q + 1 else q
      else p

/-- `Compiler::skipTypeof`. -/
def skipTypeof (ctx : Ctx) (pos : Nat) : Nat :=
  if pos ≥ nTokens ctx then pos
  else
    let v := (tokAt ctx pos).value
    if v ≠ "typeof" ∧ v ≠ "typeof_unqual" then pos
    else
      let p := pos + 1
      if p < nTokens ctx ∧ (tokAt ctx p).type = .LPAREN then
        skipParenDepth ctx (p + 1) 1
      else p

/-- `while (pos < size && (STAR || "?")) pos++` (declarator decoration);
structural fuel `nTokens ctx - pos`. -/
def starSkipF (ctx : Ctx) : Nat → Nat → Nat
  | 0, pos => pos
  | r+1, pos =>
    if pos < nTokens ctx ∧
        ((tokAt ctx pos).type = .STAR ∨ (tokAt ctx pos).value = "?") then
      starSkipF ctx r (pos + 1)
    else pos

def starSkip (ctx : Ctx) (pos : Nat) : Nat :=
  starSkipF ctx (nTokens ctx - pos) pos

/-- The intrinsic-call dispatch at the call site in `Compiler::parsePrimary`
(lines 672-697 of main.cpp). -/
def dispatchCall (name : String) (count : Nat) (s : PState) : PState :=
  if name = "printf" ∨ name = "print" then emitSyscall 0x60 (emitPushInt count s)
  else if name = "len" ∨ name = "strlen" then emitSyscall 0x63 (emitPushInt count s)
  else if name = "malloc" then emitSyscall 0xD0 (emitPushInt count s)
  else if name = "free" then emitSyscall 0xD3 (emitPushInt count s)
  else if name = "exit" then emitSyscall 0xC0 (emitPushInt count s)
  else if name = "system" then emitSyscall 0xC1 (emitPushInt count s)
  else if name = "time.sleep" then emitSyscall 0xC2 (emitPushInt count s)
  else if name = "math.sqrt" then emitSyscall 0xB0 (emitPushInt count s)
  else if name = "abs" then emitOp 0x25 s
  else if name = "min" ∨ name = "MIN" then emitOp 0x26 s
  else if name = "max" ∨ name = "MAX" then emitOp 0x27 s
  else if name = "fopen" then emitSyscall 0x70 (emitPushInt count s)
  else if name = "fprintf" then emitSyscall 0x71 (emitPushInt count s)
  else if name = "fclose" then emitSyscall 0x72 (emitPushInt count s)
  else if name = "time" then emitSyscall 0x80 (emitPushInt count s)
  else if name = "ctime" then emitSyscall 0x81 (emitPushInt count s)
  else if name = "memcpy" then emitSyscall 0xD5 (emitPushInt count s)
  else if name ≠ "" then emitString (mangle s name) (emitOp 0x0C s)
  else emitString "" (emitOp 0x0C s)

mutual

/-- The top-level loop of `Compiler::compile`. -/
def topLoop : Nat → Ctx → PState → Option PState
  | 0, _, _ => none
  | n+1, ctx, s =>
    if s.pos < nTokens ctx ∧ (tokAt ctx s.pos).type ≠ .END_OF_FILE then
      match parseTopLevel n ctx s with
      | none => none
      | some s1 => topLoop n ctx s1
    else some s

/-- `Compiler::parseTopLevel`. -/
def parseTopLevel : Nat → Ctx → PState → Option PState
  | 0, _, _ => none
  | n+1, ctx, s =>
    if s.pos ≥ nTokens ctx then some s
    else if (tokAt ctx s.pos).value = "__module__" then
      let p1 := s.pos + 1
      if p1 < nTokens ctx then
        some { s with pos := p1 + 1, modulePfx := (tokAt ctx p1).value ++ "." }
      else some { s with pos := p1 }
    else if (tokAt ctx s.pos).value = "__endmodule__" then
      let s1 := { s with pos := s.pos + 1, modulePfx := "" }
      if s1.pos < nTokens ctx ∧ (tokAt ctx s1.pos).type = .SEMICOLON then
        some { s1 with pos := s1.pos + 1 }
      else some s1
    else
      match modifierLoop n ctx s.pos with
      | none => none
      | some p2 =>
        let s2 := { s with pos := p2 }
        if s2.pos ≥ nTokens ctx then some s2
        else
          let t := tokAt ctx s2.pos
          if t.type = .KEYWORD ∨ t.type = .IDENTIFIER then
            if t.value = "using" ∨ t.value = "import" ∨ t.value = "module" ∨
                t.value = "export" then
              let p := skipUntil ctx (fun tk => tk.type = .SEMICOLON) (s2.pos + 1)
              some { s2 with pos := if p < nTokens ctx then p + 1 else p }
            else if t.value = "namespace" ∨ t.value = "class" ∨ t.value = "struct" ∨
                t.value = "union" ∨ t.value = "enum" then
              let q1 := s2.pos + 1
              let q2 := if q1 < nTokens ctx ∧ (tokAt ctx q1).type = .IDENTIFIER then q1 + 1 else q1
              if q2 < nTokens ctx ∧ (tokAt ctx q2).type = .LBRACE then
                match nsBodyLoop n ctx { s2 with pos := q2 + 1 } with
                | none => none
                | some s3 =>
                  let s4 := if s3.pos < nTokens ctx then { s3 with pos := s3.pos + 1 } else s3
                  some (if s4.pos < nTokens ctx ∧ (tokAt ctx s4.pos).type = .SEMICOLON then
                    { s4 with pos := s4.pos + 1 } else s4)
              else some { s2 with pos := q2 }
            else if t.value = "def" ∨ hasType t.value then
              parseDeclaration n ctx s2
            else parseStatement n ctx s2
          else parseStatement n ctx s2

/-- The declaration-modifier skipping loop in `Compiler::parseTopLevel`. -/
def modifierLoop : Nat → Ctx → Nat → Option Nat
  | 0, _, _ => none
  | n+1, ctx, pos =>
    if pos < nTokens ctx ∧ isDeclModifier (tokAt ctx pos).value then
      let v := (tokAt ctx pos).value
      if v = "alignas" ∨ v = "alignof" ∨ v = "_Alignas" ∨ v = "_Alignof" then
        modifierLoop n ctx (skipAlignasAlignof ctx pos)
      else if v = "static_assert" ∨ v = "_Static_assert" then
        modifierLoop n ctx (skipStaticAssert ctx pos)
      else if v = "typeof" ∨ v = "typeof_unqual" then
        modifierLoop n ctx (skipTypeof ctx pos)
      else modifierLoop n ctx (pos + 1)
    else some pos

/-- The `namespace`/`class`/... body loop in `Compiler::parseTopLevel`. -/
def nsBodyLoop : Nat → Ctx → PState → Option PState
  | 0, _, _ => none
  | n+1, ctx, s =>
    if s.pos < nTokens ctx ∧ (tokAt ctx s.pos).type ≠ .RBRACE then
      match parseTopLevel n ctx s with
      | none => none
      | some s1 => nsBodyLoop n ctx s1
    else some s

/-- `Compiler::parseDeclaration`. -/
def parseDeclaration : Nat → Ctx → PState → Option PState
  | 0, _, _ => none
  | n+1, ctx, s =>
    let r := parseTypeName ctx s.pos
    let typeName := r.1
    let sa := { s with pos := r.2 }
    if typeName = "" then some sa
    else
      let sb := { sa with pos := starSkip ctx sa.pos }
      let name := if sb.pos < nTokens ctx then (tokAt ctx sb.pos).value else ""
      let sc := if sb.pos < nTokens ctx then { sb with pos := sb.pos + 1 } else sb
      if name = "" then some sc
      else
        let sym := mangle sc name
        if sc.pos < nTokens ctx ∧ (tokAt ctx sc.pos).type = .LPAREN then
          -- function
          match argLoop n ctx { sc with pos := sc.pos + 1 } [] with
          | none => none
          | some (args, s1) =>
            let s2 := if s1.pos < nTokens ctx then { s1 with pos := s1.pos + 1 } else s1
            let s3 := if s2.pos < nTokens ctx ∧ (tokAt ctx s2.pos).type = .COLON then
                { s2 with pos := s2.pos + 1 } else s2
            let startPlace := s3.bc.length
            let s4 := emitString sym (emitOp 0x04 (emitPushInt 0 s3))
            let skipJump := s4.bc.length
            let s5 := emitJump 0x0A 0 s4
            let bodyStart := s5.bc.length
            let s6 := { s5 with symtab := symSet sym bodyStart s5.symtab }
            let s7 := patchInt (startPlace + 1) bodyStart s6
            let s8 := args.reverse.foldl
              (fun st a => emitString (mangle st a) (emitOp 0x04 st)) s7
            match parseBlock n ctx s8 with
            | none => none
            | some s9 =>
              let s10 := emitOp 0x0D s9
              some (patchInt (skipJump + 1) s10.bc.length s10)
        else
          -- variable (including package constants)
          let sd :=
            if sc.pos < nTokens ctx ∧ (tokAt ctx sc.pos).type = .LBRACKET then
              let p := sc.pos + 1
              { sc with pos := if p < nTokens ctx ∧ (tokAt ctx p).type = .RBRACKET then p + 1 else p }
            else sc
          let afterInit : Option PState :=
            if sd.pos < nTokens ctx ∧ (tokAt ctx sd.pos).type = .EQUALS then
              let se := { sd with pos := sd.pos + 1 }
              if (tokAt ctx se.pos).type = .LBRACE then
                match braceInitLoop n ctx typeName sym 0 { se with pos := se.pos + 1 } with
                | none => none
                | some s1 => some (if s1.pos < nTokens ctx then { s1 with pos := s1.pos + 1 } else s1)
              else
                match parseExpression n ctx 0 se with
                | none => none
                | some (_, s1) => some (emitString sym (emitOp 0x04 s1))
            else some sd
          match afterInit with
          | none => none
          | some sf =>
            some (if sf.pos < nTokens ctx ∧ (tokAt ctx sf.pos).type = .SEMICOLON then
              { sf with pos := sf.pos + 1 } else sf)

/-- The function-parameter loop in `Compiler::parseDeclaration`
(lines 287-294; note that nothing in its body is forced to consume a
token, so the C++ loop can run forever). -/
def argLoop : Nat → Ctx → PState → List String → Option (List String × PState)
  | 0, _, _, _ => none
  | n+1, ctx, s, args =>
    if s.pos < nTokens ctx ∧ (tokAt ctx s.pos).type ≠ .RPAREN then
      let r := parseTypeName ctx s.pos
      let p1 := starSkip ctx r.2
      let step := if p1 < nTokens ctx ∧ (tokAt ctx p1).type = .IDENTIFIER then
          (args ++ [(tokAt ctx p1).value], p1 + 1) else (args, p1)
      let p3 := if step.2 < nTokens ctx ∧ (tokAt ctx step.2).type = .COMMA then
          step.2 + 1 else step.2
      argLoop n ctx { s with pos := p3 } step.1
    else some (args, s)

/-- The brace-initializer loop in `Compiler::parseDeclaration`. -/
def braceInitLoop : Nat → Ctx → String → String → Nat → PState → Option PState
  | 0, _, _, _, _, _ => none
  | n+1, ctx, typeName, sym, i, s =>
    if s.pos < nTokens ctx ∧ (tokAt ctx s.pos).type ≠ .RBRACE then
      match parseExpression n ctx 0 s with
      | none => none
      | some (_, s1) =>
        let s2 :=
          match lookupType typeName with
          | some ti =>
            if i < ti.fields.length then
              emitString (sym ++ "." ++ (ti.fields.getD i ("", 0)).1) (emitOp 0x04 s1)
            else emitString (sym ++ "[" ++ Nat.repr i ++ "]") (emitOp 0x04 s1)
          | none => emitString (sym ++ "[" ++ Nat.repr i ++ "]") (emitOp 0x04 s1)
        let s3 := if (tokAt ctx s2.pos).type = .COMMA then { s2 with pos := s2.pos + 1 } else s2
        braceInitLoop n ctx typeName sym (i + 1) s3
    else some s

/-- `Compiler::parseBlock`. -/
def parseBlock : Nat → Ctx → PState → Option PState
  | 0, _, _ => none
  | n+1, ctx, s =>
    if s.pos < nTokens ctx ∧
        ((tokAt ctx s.pos).type = .INDENT ∨ (tokAt ctx s.pos).type = .LBRACE) then
      let endTy := if (tokAt ctx s.pos).type = .INDENT then TokenType.DEDENT
                   else TokenType.RBRACE
      match blockLoop n ctx endTy { s with pos := s.pos + 1 } with
      | none => none
      | some s1 => some (if s1.pos < nTokens ctx then { s1 with pos := s1.pos + 1 } else s1)
    else parseTopLevel n ctx s

/-- The body loop of `Compiler::parseBlock`. -/
def blockLoop : Nat → Ctx → TokenType → PState → Option PState
  | 0, _, _, _ => none
  | n+1, ctx, endTy, s =>
    if s.pos < nTokens ctx ∧ (tokAt ctx s.pos).type ≠ endTy then
      match parseTopLevel n ctx s with
      | none => none
      | some s1 => blockLoop n ctx endTy s1
    else some s

/-- `Compiler::parseStatement`. -/
def parseStatement : Nat → Ctx → PState → Option PState
  | 0, _, _ => none
  | n+1, ctx, s0 =>
    if s0.pos ≥ nTokens ctx then some s0
    else
      let t := tokAt ctx s0.pos
      let s := { s0 with pos := s0.pos + 1 }
      if t.value = "for" then
        let sa := if (tokAt ctx s.pos).type = .LPAREN then { s with pos := s.pos + 1 } else s
        let var := (tokAt ctx sa.pos).value
        let sb := { sa with pos := sa.pos + 1 }
        let sc := if (tokAt ctx sb.pos).value = "in" then { sb with pos := sb.pos + 1 } else sb
        match parseExpression n ctx 0 sc with
        | none => none
        | some (_, s1) =>
          let s2 := if (tokAt ctx s1.pos).type = .RPAREN then { s1 with pos := s1.pos + 1 } else s1
          let loopStart := s2.bc.length
          let s3 := emitOp 0x0E s2
          let patchFor := s3.bc.length
          let s4 := noteJump patchFor (emitInt 0 s3)
          let s5 := emitString (mangle s4 var) (emitOp 0x04 s4)
          match parseBlock n ctx s5 with
          | none => none
          | some s6 =>
            let s7 := emitJump 0x0A loopStart s6
            some (patchInt patchFor s7.bc.length s7)
      else if t.value = "try" then
        let s1 := emitOp 0x0F s
        let patchTry := s1.bc.length
        let s2 := emitInt 0 s1
        match parseBlock n ctx s2 with
        | none => none
        | some s3 =>
          let s4 := emitOp 0x10 s3
          let skipCatch := s4.bc.length
          let s5 := emitJump 0x0A 0 s4
          let s6 := patchInt patchTry s5.bc.length s5
          let handler : Option PState :=
            if s6.pos < nTokens ctx ∧
                ((tokAt ctx s6.pos).value = "except" ∨ (tokAt ctx s6.pos).value = "catch") then
              let s7 := { s6 with pos := s6.pos + 1 }
              let s8 := if s7.pos < nTokens ctx ∧ (tokAt ctx s7.pos).type = .LPAREN then
                  { s7 with pos := skipUntil ctx (fun tk => tk.type = .RPAREN) (s7.pos + 1) + 1 }
                else s7
              let s9 := if s8.pos < nTokens ctx ∧ (tokAt ctx s8.pos).type = .COLON then
                  { s8 with pos := s8.pos + 1 } else s8
              parseBlock n ctx s9
            else some s6
          match handler with
          | none => none
          | some s10 => some (patchInt (skipCatch + 1) s10.bc.length s10)
      else if t.value = "raise" ∨ t.value = "throw" then
        match parseExpression n ctx 0 s with
        | none => none
        | some (_, s1) =>
          let s2 := emitOp 0x11 s1
          some (if s2.pos < nTokens ctx ∧ (tokAt ctx s2.pos).type = .SEMICOLON then
            { s2 with pos := s2.pos + 1 } else s2)
      else if t.value = "if" then
        let sa := if (tokAt ctx s.pos).type = .LPAREN then { s with pos := s.pos + 1 } else s
        match parseExpression n ctx 0 sa with
        | none => none
        | some (_, s1) =>
          let s2 := if (tokAt ctx s1.pos).type = .RPAREN then { s1 with pos := s1.pos + 1 } else s1
          let s3 := emitOp 0x0B s2
          let patch := s3.bc.length
          let s4 := noteJump patch (emitInt 0 s3)
          match parseBlock n ctx s4 with
          | none => none
          | some s5 =>
            match elifLoop n ctx patch s5 with
            | none => none
            | some (patchF, s6) => some (patchInt patchF s6.bc.length s6)
      else if t.value = "return" then
        match parseExpression n ctx 0 s with
        | none => none
        | some (_, s1) =>
          let s2 := emitOp 0x0D s1
          some (if s2.pos < nTokens ctx ∧ (tokAt ctx s2.pos).type = .SEMICOLON then
            { s2 with pos := s2.pos + 1 } else s2)
      else if t.value = "yield" then
        match parseExpression n ctx 0 s with
        | none => none
        | some (_, s1) =>
          some (if s1.pos < nTokens ctx ∧ (tokAt ctx s1.pos).type = .SEMICOLON then
            { s1 with pos := s1.pos + 1 } else s1)
      else if t.value = "pass" then
        some (if s.pos < nTokens ctx ∧ (tokAt ctx s.pos).type = .SEMICOLON then
          { s with pos := s.pos + 1 } else s)
      else if t.value = "del" ∨ t.value = "global" ∨ t.value = "nonlocal" then
        let p := skipUntil ctx (fun tk => tk.type = .SEMICOLON) s.pos
        some { s with pos := if p < nTokens ctx then p + 1 else p }
      else if t.value = "with" then
        let p := skipUntil ctx (fun tk => tk.type = .COLON) s.pos
        let s1 := { s with pos := if p < nTokens ctx then p + 1 else p }
        parseBlock n ctx s1
      else if t.value = "assert" then
        match parseExpression n ctx 0 s with
        | none => none
        | some (_, s1) =>
          let s2 := emitOp 0x0B s1
          let patchAssert := s2.bc.length
          let s3 := noteJump patchAssert (emitInt 0 s2)
          let withMsg : Option PState :=
            if s3.pos < nTokens ctx ∧ (tokAt ctx s3.pos).type = .COMMA then
              match parseExpression n ctx 0 { s3 with pos := s3.pos + 1 } with
              | none => none
              | some (_, s4) => some s4
            else some s3
          match withMsg with
          | none => none
          | some s5 =>
            let abortAddr := s5.bc.length
            let s6 := emitSyscall 0xE0 (emitPushInt 1 s5)
            let s7 := patchInt patchAssert abortAddr s6
            some (if s7.pos < nTokens ctx ∧ (tokAt ctx s7.pos).type = .SEMICOLON then
              { s7 with pos := s7.pos + 1 } else s7)
      else if t.value = "break" ∨ t.value = "continue" ∨ t.value = "switch" ∨
          t.value = "case" ∨ t.value = "default" ∨ t.value = "do" ∨
          t.value = "lambda" ∨ t.value = "async" ∨ t.value = "await" ∨
          t.value = "match" then
        let p := skipUntil ctx
          (fun tk => tk.type = .SEMICOLON ∨ tk.type = .COLON) s.pos
        if p < nTokens ctx ∧ (tokAt ctx p).type = .COLON then
          parseBlock n ctx { s with pos := p + 1 }
        else if p < nTokens ctx then some { s with pos := p + 1 }
        else some { s with pos := p }
      else
        -- pos-- and fall through to declaration or expression statement
        if hasType (tokAt ctx s0.pos).value then parseDeclaration n ctx s0
        else
          match parseExpression n ctx 0 s0 with
          | none => none
          | some (_, s1) =>
            some (if s1.pos < nTokens ctx ∧ (tokAt ctx s1.pos).type = .SEMICOLON then
              { s1 with pos := s1.pos + 1 } else s1)

/-- The `elif`/`else` chain loop inside the `if` branch of
`Compiler::parseStatement`; returns the pending JZ-operand offset together
with the state (the caller patches it to the construct's end). -/
def elifLoop : Nat → Ctx → Nat → PState → Option (Nat × PState)
  | 0, _, _, _ => none
  | n+1, ctx, patch, s =>
    if s.pos < nTokens ctx ∧
        ((tokAt ctx s.pos).value = "elif" ∨ (tokAt ctx s.pos).value = "else") then
      if (tokAt ctx s.pos).value = "elif" then
        let s1 := { s with pos := s.pos + 1 }
        let skipElif := s1.bc.length
        let s2 := emitJump 0x0A 0 s1
        let s3 := patchInt patch s2.bc.length s2
        let s4 := if (tokAt ctx s3.pos).type = .LPAREN then { s3 with pos := s3.pos + 1 } else s3
        match parseExpression n ctx 0 s4 with
        | none => none
        | some (_, s5) =>
          let s6 := if (tokAt ctx s5.pos).type = .RPAREN then { s5 with pos := s5.pos + 1 } else s5
          let s7 := emitOp 0x0B s6
          let patch2 := s7.bc.length
          let s8 := noteJump patch2 (emitInt 0 s7)
          match parseBlock n ctx s8 with
          | none => none
          | some s9 => elifLoop n ctx patch2 (patchInt (skipElif + 1) s9.bc.length s9)
      else
        let s1 := { s with pos := s.pos + 1 }
        let skipElse := s1.bc.length
        let s2 := emitJump 0x0A 0 s1
        let s3 := patchInt patch s2.bc.length s2
        match parseBlock n ctx s3 with
        | none => none
        | some s4 => some (patch, patchInt (skipElse + 1) s4.bc.length s4)
    else some (patch, s)

/-- `Compiler::parseExpression` (precedence climbing; always returns the
empty string, as the C++ does). -/
def parseExpression : Nat → Ctx → Nat → PState → Option (String × PState)
  | 0, _, _, _ => none
  | n+1, ctx, minPrec, s =>
    match parsePrimary n ctx s with
    | none => none
    | some (leftName, s1) =>
      match exprLoop n ctx minPrec leftName s1 with
      | none => none
      | some s2 => some ("", s2)

/-- The operator loop of `Compiler::parseExpression`. -/
def exprLoop : Nat → Ctx → Nat → String → PState → Option PState
  | 0, _, _, _, _ => none
  | n+1, ctx, minPrec, leftName, s =>
    if s.pos < nTokens ctx then
      let op := tokAt ctx s.pos
      match getPrecedence op with
      | none => some s
      | some prec =>
        if prec < minPrec then some s
        else
          let s1 := { s with pos := s.pos + 1 }
          if op.type = .COLON_EQUALS then
            if leftName ≠ "" then
              match parseExpression n ctx (prec + 1) s1 with
              | none => none
              | some (_, s2) =>
                let s3 := emitString (mangle s2 leftName) (emitOp 0x04 s2)
                let s4 := emitString (mangle s3 leftName) (emitOp 0x05 s3)
                exprLoop n ctx minPrec "" s4
            else exprLoop n ctx minPrec leftName s1
          else
            match parseExpression n ctx (prec + 1) s1 with
            | none => none
            | some (_, s2) =>
              exprLoop n ctx minPrec "" { s2 with bc := emitBinaryOp op.type s2.bc }
    else some s

/-- `Compiler::parsePrimary`. -/
def parsePrimary : Nat → Ctx → PState → Option (String × PState)
  | 0, _, _ => none
  | n+1, ctx, s0 =>
    if s0.pos ≥ nTokens ctx then some ("", s0)
    else
      let t := tokAt ctx s0.pos
      let s := { s0 with pos := s0.pos + 1 }
      if t.type = .FSTRING_PART ∨ t.type = .LBRACE_EXP then
        match fstringRun n ctx true s0 with
        | none => none
        | some s1 => some ("", s1)
      else if t.type = .LPAREN then
        match parseExpression n ctx 0 s with
        | none => none
        | some (_, s1) =>
          some ("", if s1.pos < nTokens ctx ∧ (tokAt ctx s1.pos).type = .RPAREN then
            { s1 with pos := s1.pos + 1 } else s1)
      else if t.type = .LBRACKET then
        match listLoop n ctx (emitOp 0x95 s) with
        | none => none
        | some s1 => some ("", if s1.pos < nTokens ctx then { s1 with pos := s1.pos + 1 } else s1)
      else if t.type = .LBRACE ∧ ¬ctx.pythonMode then
        match dictLoop n ctx (emitOp 0x92 s) with
        | none => none
        | some s1 => some ("", if s1.pos < nTokens ctx then { s1 with pos := s1.pos + 1 } else s1)
      else if t.type = .MINUS then
        match parsePrimary n ctx s with
        | none => none
        | some (_, s1) => some ("", emitOp 0x08 (emitPushInt (-1) s1))
      else if t.type = .NOT ∨ (t.type = .KEYWORD ∧ t.value = "not") then
        match parsePrimary n ctx s with
        | none => none
        | some (_, s1) => some ("", emitOp 0x21 s1)
      else if t.type = .KEYWORD ∧ t.value = "nullptr" then
        some ("", emitPushInt 0 s)
      else if t.type = .KEYWORD ∧ t.value = "sizeof" then
        if s.pos < nTokens ctx ∧ (tokAt ctx s.pos).type = .LPAREN then
          let r := parseTypeName ctx (s.pos + 1)
          let s1 := { s with pos := r.2 }
          let s2 := if s1.pos < nTokens ctx ∧ (tokAt ctx s1.pos).type = .RPAREN then
              { s1 with pos := s1.pos + 1 } else s1
          some ("", emitPushInt (getTypeSize r.1) s2)
        else
          let r := parseTypeName ctx s.pos
          some ("", emitPushInt (getTypeSize r.1) { s with pos := r.2 })
      else if t.type = .STAR then
        match parseExpression n ctx 0 s with
        | none => none
        | some (_, s1) => some ("", emitOp 4 (emitOp 0xE2 (emitPushInt 0 s1)))
      else if t.type = .AMPERSAND then
        match parseExpression n ctx 0 s with
        | none => none
        | some (_, s1) => some ("", s1)
      else if t.type = .KEYWORD ∧ t.value = "true" then
        some ("", emitPushInt 1 s)
      else if t.type = .KEYWORD ∧ t.value = "false" then
        some ("", emitPushInt 0 s)
      else
        let name := if t.type = .IDENTIFIER then t.value else ""
        let s1 := if t.type = .INTEGER then emitPushInt ((cppStoi t.value).getD 0) s
                  else if t.type = .STRING then emitStringLiteral t.value (emitOp 0x02 s)
                  else s
        match primaryLoop n ctx name s1 with
        | none => none
        | some (name2, s2) =>
          if name2 ≠ "" then
            if name2 = "math.pi" then some ("", emitSyscall 0xB2 s2)
            else if name2 = "math.e" then some ("", emitSyscall 0xB3 s2)
            else some ("", emitString (mangle s2 name2) (emitOp 0x05 s2))
          else some ("", s2)

/-- The suffix loop (field access, calls, indexing, assignment) at the end
of `Compiler::parsePrimary`. -/
def primaryLoop : Nat → Ctx → String → PState → Option (String × PState)
  | 0, _, _, _ => none
  | n+1, ctx, name, s =>
    if s.pos < nTokens ctx then
      let tk := tokAt ctx s.pos
      if tk.type = .DOT ∨ tk.type = .ARROW then
        let p1 := s.pos + 1
        let field := (tokAt ctx p1).value
        let s1 := { s with pos := p1 + 1 }
        if name ≠ "" then primaryLoop n ctx (name ++ "." ++ field) s1
        else
          primaryLoop n ctx name (emitOp 4 (emitOp 0x52 (emitString field (emitOp 0x02 s1))))
      else if tk.type = .LPAREN then
        match callArgsLoop n ctx 0 { s with pos := s.pos + 1 } with
        | none => none
        | some (count, s1) =>
          let s2 := if s1.pos < nTokens ctx then { s1 with pos := s1.pos + 1 } else s1
          primaryLoop n ctx "" (dispatchCall name count s2)
      else if tk.type = .LBRACKET then
        let s1 := if name ≠ "" then emitString (mangle s name) (emitOp 0x05 s) else s
        let s2 := { s1 with pos := s1.pos + 1 }
        match parseExpression n ctx 0 s2 with
        | none => none
        | some (_, s3) =>
          let s4 := if s3.pos < nTokens ctx ∧ (tokAt ctx s3.pos).type = .RBRACKET then
              { s3 with pos := s3.pos + 1 } else s3
          if s4.pos < nTokens ctx ∧ (tokAt ctx s4.pos).type = .EQUALS then
            match parseExpression n ctx 0 { s4 with pos := s4.pos + 1 } with
            | none => none
            | some (_, s5) => primaryLoop n ctx "" (emitOp 4 (emitOp 0x53 s5))
          else primaryLoop n ctx "" (emitOp 4 (emitOp 0x52 s4))
      else if name ≠ "" ∧ tk.type = .EQUALS then
        match parseExpression n ctx 0 { s with pos := s.pos + 1 } with
        | none => none
        | some (_, s1) => primaryLoop n ctx "" (emitString (mangle s1 name) (emitOp 0x04 s1))
      else some (name, s)
    else some (name, s)

/-- The call-argument loop in `Compiler::parsePrimary`. -/
def callArgsLoop : Nat → Ctx → Nat → PState → Option (Nat × PState)
  | 0, _, _, _ => none
  | n+1, ctx, count, s =>
    if s.pos < nTokens ctx ∧ (tokAt ctx s.pos).type ≠ .RPAREN then
      match parseExpression n ctx 0 s with
      | none => none
      | some (_, s1) =>
        let s2 := if (tokAt ctx s1.pos).type = .COMMA then { s1 with pos := s1.pos + 1 } else s1
        callArgsLoop n ctx (count + 1) s2
    else some (count, s)

/-- The f-string joining loop at the top of `Compiler::parsePrimary`. -/
def fstringRun : Nat → Ctx → Bool → PState → Option PState
  | 0, _, _, _ => none
  | n+1, ctx, first, s =>
    if s.pos < nTokens ctx ∧
        ((tokAt ctx s.pos).type = .FSTRING_PART ∨ (tokAt ctx s.pos).type = .LBRACE_EXP) then
      let ft := tokAt ctx s.pos
      let s1 := { s with pos := s.pos + 1 }
      let seg : Option PState :=
        if ft.type = .FSTRING_PART then some (emitString ft.value (emitOp 0x02 s1))
        else
          match parseExpression n ctx 0 s1 with
          | none => none
          | some (_, s2) =>
            let s3 := if s2.pos < nTokens ctx ∧ (tokAt ctx s2.pos).type = .RBRACE_EXP then
                { s2 with pos := s2.pos + 1 } else s2
            some (emitSyscall 0xEF (emitPushInt 1 s3))
      match seg with
      | none => none
      | some s4 => fstringRun n ctx false (if ¬first then emitOp 0x06 s4 else s4)
    else some s

/-- The list-literal loop in `Compiler::parsePrimary`. -/
def listLoop : Nat → Ctx → PState → Option PState
  | 0, _, _ => none
  | n+1, ctx, s =>
    if s.pos < nTokens ctx ∧ (tokAt ctx s.pos).type ≠ .RBRACKET then
      match parseExpression n ctx 0 s with
      | none => none
      | some (_, s1) =>
        let s2 := emitOp 0x96 s1
        let s3 := if s2.pos < nTokens ctx ∧ (tokAt ctx s2.pos).type = .COMMA then
            { s2 with pos := s2.pos + 1 } else s2
        listLoop n ctx s3
    else some s

/-- The dict-literal loop in `Compiler::parsePrimary`. -/
def dictLoop : Nat → Ctx → PState → Option PState
  | 0, _, _ => none
  | n+1, ctx, s =>
    if s.pos < nTokens ctx ∧ (tokAt ctx s.pos).type ≠ .RBRACE then
      match parseExpression n ctx 0 s with
      | none => none
      | some (_, s1) =>
        let s2 := if s1.pos < nTokens ctx ∧ (tokAt ctx s1.pos).type = .COLON then
            { s1 with pos := s1.pos + 1 } else s1
        match parseExpression n ctx 0 s2 with
        | none => none
        | some (_, s3) =>
          let s4 := emitOp 0x93 s3
          let s5 := if s4.pos < nTokens ctx ∧ (tokAt ctx s4.pos).type = .COMMA then
              { s4 with pos := s4.pos + 1 } else s4
          dictLoop n ctx s5
    else some s

end

/-- `Compiler::compile`: run the top-level loop, then call `main` (or
`Main`) if defined, then `HALT`. -/
def compileTok (ctx : Ctx) (fuel : Nat) : Option PState :=
  match topLoop fuel ctx {} with
  | none => none
  | some s =>
    let entry := if (s.symtab.lookup "main").isSome then "main"
                 else if (s.symtab.lookup "Main").isSome then "Main" else ""
    let s1 := if entry ≠ "" then emitString entry (emitOp 0x0C s) else s
    some (emitOp 0x00 s1)

def compileBytes (ctx : Ctx) (fuel : Nat) : Option (List Nat) :=
  (compileTok ctx fuel).map PState.bc

/-- `main`: preprocessed source is lexed and compiled; the artifact is the
four bytes `CASM` followed by the bytecode (`out.write("CASM", 4)` then the
buffer). -/
def artifact (bc : List Nat) : List Nat := [0x43, 0x41, 0x53, 0x4D] ++ bc

/-- Lex and compile a source string (as `main` does after preprocessing). -/
def compileSrc (src : String) (pythonMode : Bool) (fuel : Nat) : Option (List Nat) :=
  match tokenize src pythonMode with
  | none => none
  | some ts => compileBytes ⟨ts, pythonMode⟩ fuel

/-- Lex and compile, keeping the full final state (symbol table and the
ghost jump-operand offsets). -/
def compileSrcSt (src : String) (pythonMode : Bool) (fuel : Nat) : Option PState :=
  match tokenize src pythonMode with
  | none => none
  | some ts => compileTok ⟨ts, pythonMode⟩ fuel

/-! ## Preprocessor (main.cpp, `preprocess`)

The filesystem is abstracted as an association list from path strings to
file contents (`std::ifstream(path).good()` succeeding iff the path is
present); `globalIncludedFiles` is threaded explicitly. -/

/-- Split a character list at newlines (each segment without its `\n`). -/
def splitNl : List Char → List (List Char)
  | [] => [[]]
  | c :: t =>
    if c = '\n' then [] :: splitNl t
    else
      match splitNl t with
      | [] => [[c]]
      | l :: ls => (c :: l) :: ls

/-- The `std::getline` reading loop: yields each line without its newline;
a trailing newline produces no extra empty line, and an empty source has
no lines at all. -/
def getlineSplit (s : String) : List String :=
  if s = "" then []
  else
    let parts := splitNl s.data
    (if parts.getLast? = some [] then parts.dropLast else parts).map String.mk

/-- Index of the first character contained in `set` (`find_first_of`). -/
def findCharFrom (set : List Char) : List Char → Option Nat
  | [] => none
  | c :: t => if set.contains c then some 0 else (findCharFrom set t).map (· + 1)

/-- `std::string::find_last_of` over a character set. -/
def findLastOfIdx (l : List Char) (set : List Char) : Option Nat :=
  (findCharFrom set l.reverse).map (fun i => l.length - 1 - i)

/-- `std::string::find` of a substring pattern, as an index. -/
def findSubFrom (pat : List Char) : List Char → Option Nat
  | [] => if pat.isEmpty then some 0 else none
  | c :: t => if pat.isPrefixOf (c :: t) then some 0 else (findSubFrom pat t).map (· + 1)

/-- Extraction and normalisation of the module spec from a directive line
(lines 828-844 of main.cpp): `import`-lines take the text after
`import `, honouring ` as ` and ` from `; `#include`-lines take the text
between the first of `"`/`<` and the last of `"`/`>` (`none` models the
`continue` when those are missing); the result is trimmed and then
stripped of all embedded whitespace. -/
def extractMod (line : String) (isImport : Bool) : Option String :=
  let raw : Option (List Char) :=
    if isImport then
      let m0 := line.data.drop 7
      match findSubFrom " as ".data m0 with
      | some i => some (m0.take i)
      | none =>
        match findSubFrom " from ".data m0 with
        | some j => some (m0.drop (j + 6))
        | none => some m0
    else
      match findCharFrom ['"', '<'] line.data, findLastOfIdx line.data ['"', '>'] with
      | some st, some en =>
        if en > st then some ((line.data.drop (st + 1)).take (en - st - 1)) else none
      | _, _ => none
  match raw with
  | none => none
  | some m =>
    let m1 := m.dropWhile (fun c => c = ' ' ∨ c = '\t')
    let m2 := (m1.reverse.dropWhile (fun c => c = ' ' ∨ c = '\t')).reverse
    some (String.mk (m2.filter (fun c => ¬ isCppSpace c)))

/-- The standard-library names that resolve to nothing (line 846). -/
def elisionSet : List String :=
  ["math", "math.h", "cmath", "sys", "stdlib.h", "cstdlib", "time", "time.h",
   "ctime", "iostream", "stdio.h", "vector", "string", "map"]

/-- The candidate file names for a module spec (lines 850-855). -/
def attempts (mod : String) : List String :=
  [mod ++ "/__init__.soul", mod ++ "/__init__.py",
   mod ++ ".soul", mod ++ ".py",
   mod ++ ".h", mod ++ ".c", mod ++ ".cpp", mod ++ ".hpp", mod ++ ".cc", mod ++ ".hh",
   mod]

def searchPaths (currentDir : String) (includePaths : List String) : List String :=
  [currentDir, "."] ++ includePaths

def fullPathOf (path tryName : String) : String :=
  if path = "" then tryName else path ++ "/" ++ tryName

/-- The flattened candidate iteration order of the two nested loops
(search path outer, attempt inner, with `found`-break). Each entry pairs
the search path (which becomes the current directory of the recursive
expansion) with the full candidate path. -/
def candidatesOf (mod currentDir : String) (includePaths : List String) :
    List (String × String) :=
  (searchPaths currentDir includePaths).flatMap
    (fun p => (attempts mod).map (fun t => (p, fullPathOf p t)))

mutual

/-- `preprocess(source, currentDir, includePaths)` with the filesystem and
the global included-file list made explicit. Returns the expanded text and
the updated included list; `none` when the fuel runs out. -/
def preprocessF : Nat → List (String × String) → String → String → List String →
    List String → Option (String × List String)
  | 0, _, _, _, _, _ => none
  | n+1, fs, source, currentDir, includePaths, included =>
    lineLoopF n fs (getlineSplit source) currentDir includePaths "" included

/-- The per-line loop of `preprocess`. -/
def lineLoopF : Nat → List (String × String) → List String → String → List String →
    String → List String → Option (String × List String)
  | 0, _, _, _, _, _, _ => none
  | _+1, _, [], _, _, acc, included => some (acc, included)
  | n+1, fs, line :: rest, dir, inc, acc, included =>
    if "import ".data.isPrefixOf line.data ∨ "#include".data.isPrefixOf line.data then
      let isImport := "import ".data.isPrefixOf line.data
      match extractMod line isImport with
      | none => lineLoopF n fs rest dir inc acc included
      | some mod =>
        if elisionSet.contains mod then lineLoopF n fs rest dir inc acc included
        else
          match tryCandsF n fs isImport mod inc included (candidatesOf mod dir inc) with
          | none => none
          | some r => lineLoopF n fs rest dir inc (acc ++ r.1) r.2
    else lineLoopF n fs rest dir inc (acc ++ line ++ "\n") included

/-- The candidate-resolution loop of `preprocess` (lines 857-874): a path
already in the included list is a successful no-op producing no bytes; an
openable path is recorded in the list before being recursively expanded
(wrapped in `__module__`/`__endmodule__` for `import` directives); when no
candidate resolves, nothing at all is emitted. -/
def tryCandsF : Nat → List (String × String) → Bool → String → List String →
    List String → List (String × String) → Option (String × List String)
  | 0, _, _, _, _, _, _ => none
  | _+1, _, _, _, _, included, [] => some ("", included)
  | n+1, fs, isImport, mod, inc, included, (path, full) :: rest =>
    if included.contains full then some ("", included)
    else
      match fs.lookup full with
      | none => tryCandsF n fs isImport mod inc included rest
      | some content =>
        match preprocessF n fs content path inc (included ++ [full]) with
        | none => none
        | some r =>
          if isImport then
            some ("__module__ " ++ mod ++ "\n" ++ r.1 ++ "\n__endmodule__\n", r.2)
          else some (r.1 ++ "\n", r.2)

end

/-! ## Literal integer arithmetic expressions (for the constant-folding
specification): an AST of integer literals under the binary arithmetic and
bitwise operators, rendered to parenthesised token lists exactly as the
lexer would produce them. -/

inductive Expr where
  | lit : Nat → Expr
  | bin : TokenType → Expr → Expr → Expr
deriving DecidableEq, Repr

/-- The arithmetic/bitwise operators subject to constant folding. -/
def isArithTT (ty : TokenType) : Bool :=
  match ty with
  | .PLUS | .MINUS | .STAR | .SLASH | .MOD
  | .LSHIFT | .RSHIFT | .AMPERSAND | .PIPE | .CARET => true
  | _ => false

def digitChar (k : Nat) : Char := Char.ofNat (48 + k)

/-- Most-significant-first decimal digits, with structural fuel (any fuel
above the digit count gives the same result; `natRepr` passes `n + 1`). -/
def natDigitsF : Nat → Nat → List Char → List Char
  | 0, n, acc => digitChar n :: acc
  | r+1, n, acc =>
    if n < 10 then digitChar n :: acc
    else natDigitsF r (n / 10) (digitChar (n % 10) :: acc)

/-- Decimal rendering of a natural number (the digit string of an integer
literal token). -/
def natRepr (n : Nat) : String := String.mk (natDigitsF (n + 1) n [])

def lpTok : Token := { type := .LPAREN, value := "(", line := 0 }
def rpTok : Token := { type := .RPAREN, value := ")", line := 0 }
def semiTok : Token := { type := .SEMICOLON, value := ";", line := 0 }
def eofTok : Token := { type := .END_OF_FILE, value := "", line := 0 }

def opSpelling (ty : TokenType) : String :=
  match ty with
  | .PLUS => "+" | .MINUS => "-" | .STAR => "*" | .SLASH => "/" | .MOD => "%"
  | .LSHIFT => "<<" | .RSHIFT => ">>"
  | .AMPERSAND => "&" | .PIPE => "|" | .CARET => "^"
  | _ => ""

def opTok (ty : TokenType) : Token := { type := ty, value := opSpelling ty, line := 0 }

/-- Fully parenthesised token rendering of an expression. -/
def toTokens : Expr → List Token
  | .lit v => [lpTok, { type := .INTEGER, value := natRepr v, line := 0 }, rpTok]
  | .bin ty a b => [lpTok] ++ toTokens a ++ [opTok ty] ++ toTokens b ++ [rpTok]

/-- Direct evaluation of a literal expression with the compiler's own
32-bit constant arithmetic. -/
def evalExpr : Expr → Int
  | .lit v => (v : Int)
  | .bin ty a b => (foldConst ty (evalExpr a) (evalExpr b)).getD 0

/-- All operators are foldable and no division/modulus has a zero-valued
right operand. -/
def foldSafeB : Expr → Bool
  | .lit _ => true
  | .bin ty a b =>
    isArithTT ty && foldSafeB a && foldSafeB b &&
      !((ty = .SLASH ∨ ty = .MOD) ∧ evalExpr b = 0)

/-- All literals parse back through `std::stoi` (no 32-bit overflow). -/
def litOkB : Expr → Bool
  | .lit v => v ≤ 2147483647
  | .bin _ a b => litOkB a && litOkB b

def exprDepth : Expr → Nat
  | .lit _ => 0
  | .bin _ a b => max (exprDepth a) (exprDepth b) + 1

/-- Fuel sufficient to parse `toTokens e`. -/
def exprFuel (e : Expr) : Nat := 5 * exprDepth e + 4

/-- A source whose compilation mis-fires the constant-folding peephole on
bytes that are not two PUSH_INT instructions: a 248-character string
statement places the end of an `if`/`else` construct at offset 265, so the
back-patched JMP operand bytes are `0 0 1 9`; the following `"x" * 5` puts
a PUSH_STR and a PUSH_INT after it, and `emitBinaryOp` then sees the byte 1
of the JMP operand at distance 10 and the PUSH_INT opcode at distance 5,
treats the window as two PUSH_INT instructions, and replaces ten bytes
straddling the JMP operand with a PUSH_INT of a garbage product. -/
def c3src : String :=
  "\"" ++ String.mk (List.replicate 248 'z') ++ "\";" ++
    "if (1) \x7bpass\x7d else \x7bpass\x7d \"x\" * 5;"

/-- The token list of the source `int f(;` (as the lexer produces it). -/
def c10Tokens : List Token :=
  [{ type := .KEYWORD, value := "int", line := 1 },
   { type := .IDENTIFIER, value := "f", line := 1 },
   { type := .LPAREN, value := "(", line := 1 },
   { type := .SEMICOLON, value := ";", line := 1 },
   { type := .END_OF_FILE, value := "", line := 1 }]

/-- `Compiler::compile` diverges on this input: no amount of fuel makes the
fueled model return. -/
def compileDiverges (ctx : Ctx) : Prop := ∀ fuel, compileBytes ctx fuel = none

/-! ## Concrete scenario sources and their token streams

Each `..Toks` list below is the exact token stream `Lexer::tokenize`
produces for the corresponding source string; a `rfl` theorem ties the two
together, and the parser theorems work from the token list. -/

/-- Token constructor shorthand. -/
def tk (ty : TokenType) (v : String) (l : Nat) : Token :=
  { type := ty, value := v, line := l }

/-- Tokens of `int x = 2 + 3 * 4;`. -/
def c1aToks : List Token :=
  [tk .KEYWORD "int" 1, tk .IDENTIFIER "x" 1, tk .EQUALS "=" 1,
   tk .INTEGER "2" 1, tk .PLUS "+" 1, tk .INTEGER "3" 1, tk .STAR "*" 1,
   tk .INTEGER "4" 1, tk .SEMICOLON ";" 1, tk .END_OF_FILE "" 1]

/-- Tokens of `int x = 10 / 0;`. -/
def c1bToks : List Token :=
  [tk .KEYWORD "int" 1, tk .IDENTIFIER "x" 1, tk .EQUALS "=" 1,
   tk .INTEGER "10" 1, tk .SLASH "/" 1, tk .INTEGER "0" 1,
   tk .SEMICOLON ";" 1, tk .END_OF_FILE "" 1]

/-- Tokens of `int x = 6 / (1 - 1);`. -/
def c1cToks : List Token :=
  [tk .KEYWORD "int" 1, tk .IDENTIFIER "x" 1, tk .EQUALS "=" 1,
   tk .INTEGER "6" 1, tk .SLASH "/" 1, tk .LPAREN "(" 1,
   tk .INTEGER "1" 1, tk .MINUS "-" 1, tk .INTEGER "1" 1, tk .RPAREN ")" 1,
   tk .SEMICOLON ";" 1, tk .END_OF_FILE "" 1]

/-- The source of the nested-module scenario: what the preprocessor emits
when an imported module itself imports another module and the outer module
continues after the inner import. -/
def c6src : String :=
  "__module__ A\n__module__ B\n__endmodule__\nint x = 5;\n__endmodule__"

/-- Tokens of `c6src`. -/
def c6Toks : List Token :=
  [tk .KEYWORD "__module__" 1, tk .IDENTIFIER "A" 1,
   tk .KEYWORD "__module__" 2, tk .IDENTIFIER "B" 2,
   tk .KEYWORD "__endmodule__" 3,
   tk .KEYWORD "int" 4, tk .IDENTIFIER "x" 4, tk .EQUALS "=" 4,
   tk .INTEGER "5" 4, tk .SEMICOLON ";" 4,
   tk .KEYWORD "__endmodule__" 5, tk .END_OF_FILE "" 5]

/-- Tokens of `assert 1;`. -/
def c7Toks : List Token :=
  [tk .KEYWORD "assert" 1, tk .INTEGER "1" 1, tk .SEMICOLON ";" 1,
   tk .END_OF_FILE "" 1]

/-- Tokens of `int f() \x7bpass\x7d`. -/
def c8aToks : List Token :=
  [tk .KEYWORD "int" 1, tk .IDENTIFIER "f" 1, tk .LPAREN "(" 1,
   tk .RPAREN ")" 1, tk .LBRACE "\x7b" 1, tk .KEYWORD "pass" 1,
   tk .RBRACE "\x7d" 1, tk .END_OF_FILE "" 1]

/-- Tokens of `int f(int a, int b) \x7bpass\x7d`. -/
def c8bToks : List Token :=
  [tk .KEYWORD "int" 1, tk .IDENTIFIER "f" 1, tk .LPAREN "(" 1,
   tk .KEYWORD "int" 1, tk .IDENTIFIER "a" 1, tk .COMMA "," 1,
   tk .KEYWORD "int" 1, tk .IDENTIFIER "b" 1, tk .RPAREN ")" 1,
   tk .LBRACE "\x7b" 1, tk .KEYWORD "pass" 1, tk .RBRACE "\x7d" 1,
   tk .END_OF_FILE "" 1]

/-- A statement whose string literal is 300 characters long. -/
def c9src : String := "\"" ++ String.mk (List.replicate 300 'a') ++ "\";"

/-- Tokens of `c9src`. -/
def c9Toks : List Token :=
  [tk .STRING (String.mk (List.replicate 300 'a')) 1, tk .SEMICOLON ";" 1,
   tk .END_OF_FILE "" 1]

/-- Tokens of `c3src`. -/
def c3Toks : List Token :=
  [tk .STRING (String.mk (List.replicate 248 'z')) 1, tk .SEMICOLON ";" 1,
   tk .KEYWORD "if" 1, tk .LPAREN "(" 1, tk .INTEGER "1" 1, tk .RPAREN ")" 1,
   tk .LBRACE "\x7b" 1, tk .KEYWORD "pass" 1, tk .RBRACE "\x7d" 1,
   tk .KEYWORD "else" 1, tk .LBRACE "\x7b" 1, tk .KEYWORD "pass" 1,
   tk .RBRACE "\x7d" 1,
   tk .STRING "x" 1, tk .STAR "*" 1, tk .INTEGER "5" 1, tk .SEMICOLON ";" 1,
   tk .END_OF_FILE "" 1]

/-- The filesystem of the diamond-import scenario: `main` imports `B` and
`C`, each of which imports `D`. -/
def c4fs : List (String × String) :=
  [("./B.soul", "import D\nbbb;"), ("./C.soul", "import D\nccc;"),
   ("./D.soul", "ddd;")]

attribute [simp] tokAt nTokens symSet emitOp emitInt emitPushInt emitString
  emitStringLiteral emitSyscall noteJump emitJump patchInt mangle
  emitBinaryOp getPrecedence binOpByte hasType lookupType typesList
  typesScalar typesScalar2 typesScalar3 isDeclModifier declModifierWords
  isTypeSpec dispatchCall topLoop parseTopLevel modifierLoop nsBodyLoop
  parseDeclaration argLoop braceInitLoop parseBlock blockLoop parseStatement
  elifLoop parseExpression exprLoop parsePrimary primaryLoop callArgsLoop
  fstringRun listLoop dictLoop parseTypeName parseTypeNameLoop starSkip
  starSkipF skipUntil skipUntilF skipParenDepth skipParenDepthF
  skipAlignasAlignof skipStaticAssert skipTypeof compileTok compileBytes
  getTypeSize strContains containsFrom

end Casm

namespace Casm

/-! # Theorems

## Ground evaluation facts

The 32-bit arithmetic helpers (`encodeInt32`, `decodeI32`, `foldConst`,
`cppStoi`, `charByte`) are kept opaque during symbolic evaluation of the
parser; the concrete values they take in the scenario programs are
established here once by kernel computation. -/

theorem encI0 : encodeInt32 0 = [0,0,0,0] := by decide

theorem encI1 : encodeInt32 1 = [0,0,0,1] := by decide

theorem encI2 : encodeInt32 2 = [0,0,0,2] := by decide

theorem encI3 : encodeInt32 3 = [0,0,0,3] := by decide

theorem encI4 : encodeInt32 4 = [0,0,0,4] := by decide

theorem encI5 : encodeInt32 5 = [0,0,0,5] := by decide

theorem encI6 : encodeInt32 6 = [0,0,0,6] := by decide

theorem encI10 : encodeInt32 10 = [0,0,0,10] := by decide

theorem encI12 : encodeInt32 12 = [0,0,0,12] := by decide

theorem encI13 : encodeInt32 13 = [0,0,0,13] := by decide

theorem encI14 : encodeInt32 14 = [0,0,0,14] := by decide

theorem encI20 : encodeInt32 20 = [0,0,0,20] := by decide

theorem decL0 : decodeI32 0 0 0 0 = 0 := by decide

theorem decL1 : decodeI32 0 0 0 1 = 1 := by decide

theorem decL2 : decodeI32 0 0 0 2 = 2 := by decide

theorem decL3 : decodeI32 0 0 0 3 = 3 := by decide

theorem decL4 : decodeI32 0 0 0 4 = 4 := by decide

theorem decL5 : decodeI32 0 0 0 5 = 5 := by decide

theorem decL6 : decodeI32 0 0 0 6 = 6 := by decide

theorem decL10 : decodeI32 0 0 0 10 = 10 := by decide

theorem decL12 : decodeI32 0 0 0 12 = 12 := by decide

theorem fSTAR34 : foldConst .STAR 3 4 = some 12 := by decide

theorem fPLUS212 : foldConst .PLUS 2 12 = some 14 := by decide

theorem fSLASH100 : foldConst .SLASH 10 0 = none := by decide

theorem fMINUS11 : foldConst .MINUS 1 1 = some 0 := by decide

theorem fSLASH60 : foldConst .SLASH 6 0 = none := by decide

theorem stoi0 : cppStoi "0" = some 0 := by decide

theorem stoi1 : cppStoi "1" = some 1 := by decide

theorem stoi2 : cppStoi "2" = some 2 := by decide

theorem stoi3 : cppStoi "3" = some 3 := by decide

theorem stoi4 : cppStoi "4" = some 4 := by decide

theorem stoi5 : cppStoi "5" = some 5 := by decide

theorem stoi6 : cppStoi "6" = some 6 := by decide

theorem stoi10 : cppStoi "10" = some 10 := by decide

theorem sdx : ("x" : String).data = ['x'] := rfl

theorem slx : ("x" : String).length = 1 := rfl

theorem cbx : charByte 'x' = 120 := by decide

theorem sdf : ("f" : String).data = ['f'] := rfl

theorem slf : ("f" : String).length = 1 := rfl

theorem cbf : charByte 'f' = 102 := by decide

theorem sda : ("a" : String).data = ['a'] := rfl

theorem sla : ("a" : String).length = 1 := rfl

theorem cba : charByte 'a' = 97 := by decide

theorem sdb : ("b" : String).data = ['b'] := rfl

theorem slb : ("b" : String).length = 1 := rfl

theorem cbb : charByte 'b' = 98 := by decide

/-! ## Lexer runs on the scenario sources -/

theorem c1a_tokens : tokenize "int x = 2 + 3 * 4;" false = some c1aToks := rfl

theorem c1b_tokens : tokenize "int x = 10 / 0;" false = some c1bToks := rfl

theorem c1c_tokens : tokenize "int x = 6 / (1 - 1);" false = some c1cToks := rfl

theorem c6_tokens : tokenize c6src false = some c6Toks := rfl

theorem c7_tokens : tokenize "assert 1;" false = some c7Toks := rfl

theorem c8a_tokens : tokenize "int f() \x7bpass\x7d" false = some c8aToks := rfl

theorem c8b_tokens : tokenize "int f(int a, int b) \x7bpass\x7d" false = some c8bToks := rfl

theorem c10_tokens : tokenize "int f(;" false = some c10Tokens := rfl

/-! ## Compiler runs on the scenario token streams -/

theorem c1a_bytes : compileBytes ⟨c1aToks, false⟩ 64 = some [1,0,0,0,14, 4,1,120, 0] := by
  simp [c1aToks, tk, List.getD, List.lookup,
    encI2, encI3, encI4, encI12, encI14, decL2, decL3, decL4, decL12,
    fSTAR34, fPLUS212, stoi2, stoi3, stoi4, sdx, slx, cbx]

theorem c1b_bytes :
    compileBytes ⟨c1bToks, false⟩ 64 = some [1,0,0,0,10, 1,0,0,0,0, 9, 4,1,120, 0] := by
  simp [c1bToks, tk, List.getD, List.lookup,
    encI0, encI10, decL0, decL10, fSLASH100, stoi0, stoi10, sdx, slx, cbx]

theorem c1c_bytes :
    compileBytes ⟨c1cToks, false⟩ 64 = some [1,0,0,0,6, 1,0,0,0,0, 9, 4,1,120, 0] := by
  simp [c1cToks, tk, List.getD, List.lookup,
    encI0, encI1, encI6, decL0, decL1, decL6, fMINUS11, fSLASH60,
    stoi1, stoi6, sdx, slx, cbx]

theorem c6_bytes : compileBytes ⟨c6Toks, false⟩ 64 = some [1,0,0,0,5, 4,1,120, 0] := by
  simp [c6Toks, tk, List.getD, List.lookup, encI5, stoi5, sdx, slx, cbx]

theorem c7_bytes :
    compileBytes ⟨c7Toks, false⟩ 64 = some [1,0,0,0,1, 11,0,0,0,10, 1,0,0,0,1, 3,0xE0, 0] := by
  simp [c7Toks, tk, List.getD, List.lookup, List.set, encI0, encI1, encI10, stoi1]

theorem c8a_bytes :
    compileBytes ⟨c8aToks, false⟩ 64 = some [1,0,0,0,13, 4,1,102, 10,0,0,0,14, 13, 0] := by
  simp [c8aToks, tk, List.getD, List.lookup, List.set,
    encI0, encI13, encI14, sdf, slf, cbf]

theorem c8b_bytes :
    compileBytes ⟨c8bToks, false⟩ 64 =
      some [1,0,0,0,13, 4,1,102, 10,0,0,0,20, 4,1,98, 4,1,97, 13, 0] := by
  simp [c8bToks, tk, List.getD, List.lookup, List.set,
    encI0, encI13, encI20, sdf, slf, cbf, sda, sla, cba, sdb, slb, cbb]

end Casm

namespace Casm

/-! ## List-index helper lemmas -/

theorem getD_append_ge (l l2 : List Nat) (d : Nat) (i k : Nat)
    (hl : l.length = k) (hk : k ≤ i) : (l ++ l2).getD i d = l2.getD (i - k) d := by
  induction l generalizing i k with
  | nil =>
    simp only [List.length_nil] at hl
    subst hl
    simp
  | cons x xs ih =>
    subst hl
    simp only [List.length_cons] at hk
    cases i with
    | zero => exact absurd hk (by omega)
    | succ i =>
      simp only [List.cons_append, List.getD_cons_succ, List.length_cons]
      rw [ih i xs.length rfl (by omega)]
      congr 1
      omega

theorem set_append_ge (l l2 : List Nat) (v : Nat) (i k : Nat)
    (hl : l.length = k) (hk : k ≤ i) : (l ++ l2).set i v = l ++ l2.set (i - k) v := by
  induction l generalizing i k with
  | nil =>
    simp only [List.length_nil] at hl
    subst hl
    simp
  | cons x xs ih =>
    subst hl
    simp only [List.length_cons] at hk
    cases i with
    | zero => exact absurd hk (by omega)
    | succ i =>
      simp only [List.cons_append, List.set_cons_succ, List.length_cons]
      rw [ih i xs.length rfl (by omega)]
      have he : i + 1 - (xs.length + 1) = i - xs.length := by omega
      rw [he]

theorem take_append_eq (l l2 : List Nat) (k : Nat) (hl : l.length = k) :
    (l ++ l2).take k = l := by
  subst hl
  simp

/-! ## 32-bit round trips -/

theorem u32ofInt_lt (v : Int) : u32ofInt v < 4294967296 := by
  show (v % 4294967296 : Int).toNat < 4294967296
  omega

/-- Reading the four bytes `emitInt` wrote recovers the 32-bit wrap of the
value: the peephole's decode is inverse to the encode. -/
theorem decodeI32_u32 (v : Int) :
    decodeI32 (u32ofInt v / 16777216 % 256) (u32ofInt v / 65536 % 256)
      (u32ofInt v / 256 % 256) (u32ofInt v % 256) = wrap32 v := by
  show int32ofNat (u32ofInt v / 16777216 % 256 * 16777216 + u32ofInt v / 65536 % 256 * 65536 +
    u32ofInt v / 256 % 256 * 256 + u32ofInt v % 256) = int32ofNat (u32ofInt v)
  have h := u32ofInt_lt v
  congr 1
  omega

/-! ## The constant-folding peephole, symbolically (claim C1) -/

/-- When the buffer really ends in two PUSH_INT instructions and the fold
is defined, `emitBinaryOp` replaces the ten bytes by one PUSH_INT of the
folded value. -/
theorem emitBinaryOp_fold (ty : TokenType) (bc0 : List Nat) (a b r : Int)
    (hf : foldConst ty (wrap32 a) (wrap32 b) = some r) :
    emitBinaryOp ty (bc0 ++ 1 :: encodeInt32 a ++ 1 :: encodeInt32 b) =
      bc0 ++ 1 :: encodeInt32 r := by
  have hsh : bc0 ++ 1 :: encodeInt32 a ++ 1 :: encodeInt32 b =
      bc0 ++ [1, u32ofInt a / 16777216 % 256, u32ofInt a / 65536 % 256,
        u32ofInt a / 256 % 256, u32ofInt a % 256,
        1, u32ofInt b / 16777216 % 256, u32ofInt b / 65536 % 256,
        u32ofInt b / 256 % 256, u32ofInt b % 256] := by
    simp [encodeInt32]
  rw [hsh]
  have hlen : (bc0 ++ [1, u32ofInt a / 16777216 % 256, u32ofInt a / 65536 % 256,
      u32ofInt a / 256 % 256, u32ofInt a % 256,
      1, u32ofInt b / 16777216 % 256, u32ofInt b / 65536 % 256,
      u32ofInt b / 256 % 256, u32ofInt b % 256]).length = bc0.length + 10 := by
    simp
  simp only [emitBinaryOp, hlen]
  have hg : ∀ j d, (bc0 ++ [1, u32ofInt a / 16777216 % 256, u32ofInt a / 65536 % 256,
      u32ofInt a / 256 % 256, u32ofInt a % 256,
      1, u32ofInt b / 16777216 % 256, u32ofInt b / 65536 % 256,
      u32ofInt b / 256 % 256, u32ofInt b % 256]).getD (bc0.length + j) d =
        [1, u32ofInt a / 16777216 % 256, u32ofInt a / 65536 % 256,
          u32ofInt a / 256 % 256, u32ofInt a % 256,
          1, u32ofInt b / 16777216 % 256, u32ofInt b / 65536 % 256,
          u32ofInt b / 256 % 256, u32ofInt b % 256].getD j d := by
    intro j d
    rw [getD_append_ge _ _ _ _ bc0.length rfl (by omega)]
    congr 1
    omega
  have e5 : bc0.length + 10 - 5 = bc0.length + 5 := by omega
  have e10 : bc0.length + 10 - 10 = bc0.length + 0 := by omega
  have e4 : bc0.length + 10 - 4 = bc0.length + 6 := by omega
  have e3 : bc0.length + 10 - 3 = bc0.length + 7 := by omega
  have e2 : bc0.length + 10 - 2 = bc0.length + 8 := by omega
  have e1 : bc0.length + 10 - 1 = bc0.length + 9 := by omega
  have e9 : bc0.length + 10 - 9 = bc0.length + 1 := by omega
  have e8 : bc0.length + 10 - 8 = bc0.length + 2 := by omega
  have e7 : bc0.length + 10 - 7 = bc0.length + 3 := by omega
  have e6 : bc0.length + 10 - 6 = bc0.length + 4 := by omega
  rw [e5, e10, e4, e3, e2, e1, e9, e8, e7, e6]
  simp only [hg, List.getD_cons_zero, List.getD_cons_succ]
  split_ifs with hc
  · rw [decodeI32_u32 b, decodeI32_u32 a, hf]
    simp [take_append_eq _ _ _ rfl]
  · exact absurd ⟨by omega, by simp, by simp⟩ hc

/-- When the fold is undefined (a division or modulus whose right value is
zero), the buffer is left alone and the operator's opcode is appended. -/
theorem emitBinaryOp_nofold (ty : TokenType) (bc0 : List Nat) (a b : Int) (op : Nat)
    (hf : foldConst ty (wrap32 a) (wrap32 b) = none) (hop : binOpByte ty = some op) :
    emitBinaryOp ty (bc0 ++ 1 :: encodeInt32 a ++ 1 :: encodeInt32 b) =
      (bc0 ++ 1 :: encodeInt32 a ++ 1 :: encodeInt32 b) ++ [op] := by
  have hsh : bc0 ++ 1 :: encodeInt32 a ++ 1 :: encodeInt32 b =
      bc0 ++ [1, u32ofInt a / 16777216 % 256, u32ofInt a / 65536 % 256,
        u32ofInt a / 256 % 256, u32ofInt a % 256,
        1, u32ofInt b / 16777216 % 256, u32ofInt b / 65536 % 256,
        u32ofInt b / 256 % 256, u32ofInt b % 256] := by
    simp [encodeInt32]
  rw [hsh]
  have hlen : (bc0 ++ [1, u32ofInt a / 16777216 % 256, u32ofInt a / 65536 % 256,
      u32ofInt a / 256 % 256, u32ofInt a % 256,
      1, u32ofInt b / 16777216 % 256, u32ofInt b / 65536 % 256,
      u32ofInt b / 256 % 256, u32ofInt b % 256]).length = bc0.length + 10 := by
    simp
  simp only [emitBinaryOp, hlen, hop]
  have hg : ∀ j d, (bc0 ++ [1, u32ofInt a / 16777216 % 256, u32ofInt a / 65536 % 256,
      u32ofInt a / 256 % 256, u32ofInt a % 256,
      1, u32ofInt b / 16777216 % 256, u32ofInt b / 65536 % 256,
      u32ofInt b / 256 % 256, u32ofInt b % 256]).getD (bc0.length + j) d =
        [1, u32ofInt a / 16777216 % 256, u32ofInt a / 65536 % 256,
          u32ofInt a / 256 % 256, u32ofInt a % 256,
          1, u32ofInt b / 16777216 % 256, u32ofInt b / 65536 % 256,
          u32ofInt b / 256 % 256, u32ofInt b % 256].getD j d := by
    intro j d
    rw [getD_append_ge _ _ _ _ bc0.length rfl (by omega)]
    congr 1
    omega
  have e5 : bc0.length + 10 - 5 = bc0.length + 5 := by omega
  have e10 : bc0.length + 10 - 10 = bc0.length + 0 := by omega
  have e4 : bc0.length + 10 - 4 = bc0.length + 6 := by omega
  have e3 : bc0.length + 10 - 3 = bc0.length + 7 := by omega
  have e2 : bc0.length + 10 - 2 = bc0.length + 8 := by omega
  have e1 : bc0.length + 10 - 1 = bc0.length + 9 := by omega
  have e9 : bc0.length + 10 - 9 = bc0.length + 1 := by omega
  have e8 : bc0.length + 10 - 8 = bc0.length + 2 := by omega
  have e7 : bc0.length + 10 - 7 = bc0.length + 3 := by omega
  have e6 : bc0.length + 10 - 6 = bc0.length + 4 := by omega
  rw [e5, e10, e4, e3, e2, e1, e9, e8, e7, e6]
  simp only [hg, List.getD_cons_zero, List.getD_cons_succ]
  split_ifs with hc
  · rw [decodeI32_u32 b, decodeI32_u32 a, hf]
  · exact absurd ⟨by omega, by simp, by simp⟩ hc

theorem foldConst_slash_none_iff (v1 v2 : Int) :
    foldConst .SLASH v1 v2 = none ↔ v2 = 0 := by
  unfold foldConst
  split_ifs with h <;> simp [h]

theorem foldConst_mod_none_iff (v1 v2 : Int) :
    foldConst .MOD v1 v2 = none ↔ v2 = 0 := by
  unfold foldConst
  split_ifs with h <;> simp [h]

end Casm

namespace Casm

/-! ## Claim C2: artifact format -/

/-- C2: for every input the compiler accepts, the artifact is the four
ASCII bytes `CASM` followed immediately by the bytecode buffer (no length
header, no checksum), and the bytecode contains a HALT byte (0x00):
`Compiler::compile` unconditionally appends `emitOp 0x00` at the end. -/
theorem C2_artifact_magic_halt (ctx : Ctx) (fuel : Nat) (bc : List Nat)
    (h : compileBytes ctx fuel = some bc) :
    (artifact bc).take 4 = [0x43, 0x41, 0x53, 0x4D] ∧
    (artifact bc).drop 4 = bc ∧ 0 ∈ bc := by
  refine ⟨rfl, rfl, ?_⟩
  unfold compileBytes compileTok at h
  rcases ht : topLoop fuel ctx {} with _ | s
  · rw [ht] at h
    simp at h
  · rw [ht] at h
    injection h with h
    rw [← h]
    simp [emitOp]

/-- The theorem applied to a concrete accepted input: the empty program
compiles to the single HALT byte and its artifact is `CASM 00`. -/
theorem C2_artifact_magic_halt_witness :
    compileBytes ⟨[eofTok], false⟩ 1 = some [0] ∧
    (artifact [0]).take 4 = [0x43, 0x41, 0x53, 0x4D] ∧
    (artifact [0]).drop 4 = [0] ∧ 0 ∈ [0] :=
  ⟨by decide, C2_artifact_magic_halt ⟨[eofTok], false⟩ 1 [0] (by decide)⟩

/-! ## Claim C6: the module prefix is a single string, not a stack -/

/-- `__module__ NAME` overwrites the whole module prefix with `NAME.`
(main.cpp line 206: `modulePrefix = tokens[pos++].value + "."`). -/
theorem parseTopLevel_module (n : Nat) (ctx : Ctx) (s : PState)
    (h : (tokAt ctx s.pos).value = "__module__") (hlt : s.pos + 1 < nTokens ctx) :
    parseTopLevel (n+1) ctx s =
      some { s with pos := s.pos + 2, modulePfx := (tokAt ctx (s.pos + 1)).value ++ "." } := by
  have hp : ¬ s.pos ≥ nTokens ctx := by omega
  simp only [parseTopLevel]
  rw [if_neg hp, if_pos h, if_pos hlt]

/-- `__endmodule__` clears the prefix to the empty string
(main.cpp line 210: `modulePrefix.clear()`), regardless of nesting depth,
and emits nothing. -/
theorem parseTopLevel_endmodule (n : Nat) (ctx : Ctx) (s : PState)
    (h : (tokAt ctx s.pos).value = "__endmodule__") :
    ∃ s', parseTopLevel (n+1) ctx s = some s' ∧ s'.modulePfx = "" ∧
      s'.bc = s.bc ∧ s'.symtab = s.symtab := by
  have hp : ¬ s.pos ≥ nTokens ctx := by
    intro hge
    rw [tokAt, List.getD_eq_default _ _ (by simpa [nTokens] using hge)] at h
    exact absurd h (by decide)
  have hm : ¬ (tokAt ctx s.pos).value = "__module__" := by
    rw [h]
    decide
  simp only [parseTopLevel]
  rw [if_neg hp, if_neg hm, if_pos h]
  split_ifs with hc
  · exact ⟨_, rfl, rfl, rfl, rfl⟩
  · exact ⟨_, rfl, rfl, rfl, rfl⟩

/-- C6: the parser's module prefix is a single mutable string, not a
stack: `__module__ NAME` replaces the whole prefix by `NAME.` and
`__endmodule__` resets it to the empty string, so when a nested pair
closes the enclosing module's prefix is NOT restored; consequently in the
preprocessed stream of a module that imports another module, declarations
after the inner `__endmodule__` are stored under their bare names
(`STORE "x"`, operand bytes `1, 120`), not under the enclosing prefix. -/
theorem C6_module_prefix_single :
    (∀ n ctx s, (tokAt ctx s.pos).value = "__module__" → s.pos + 1 < nTokens ctx →
      parseTopLevel (n+1) ctx s =
        some { s with pos := s.pos + 2,
                      modulePfx := (tokAt ctx (s.pos + 1)).value ++ "." }) ∧
    (∀ n ctx s, (tokAt ctx s.pos).value = "__endmodule__" →
      ∃ s', parseTopLevel (n+1) ctx s = some s' ∧ s'.modulePfx = "" ∧
        s'.bc = s.bc ∧ s'.symtab = s.symtab) ∧
    compileSrc c6src false 64 = some [1,0,0,0,5, 4,1,120, 0] :=
  ⟨parseTopLevel_module, parseTopLevel_endmodule, by
    unfold compileSrc
    rw [c6_tokens]
    exact c6_bytes⟩

/-- The module-prefix theorem applied at the concrete nested-module token
stream: the first `__module__ A` sets the prefix to `A.`. -/
theorem C6_module_prefix_single_witness :
    parseTopLevel 1 ⟨c6Toks, false⟩ {} =
      some { bc := [], pos := 0 + 2, symtab := [],
             modulePfx := (tokAt ⟨c6Toks, false⟩ (0 + 1)).value ++ ".", jumps := [] } :=
  C6_module_prefix_single.1 0 ⟨c6Toks, false⟩ {} (by decide) (by decide)

/-- Refutation of the stack reading of C6: after the inner
`__module__ B` / `__endmodule__` pair closes, a stack would restore the
prefix `A.` and `int x = 5;` would store under `A.x` (name bytes
`3, 65, 46, 120`); the compiler instead emits the bare name `x`
(bytes `1, 120`). -/
theorem C6_counterexample :
    tokenize c6src false = some c6Toks ∧
    compileBytes ⟨c6Toks, false⟩ 64 = some [1,0,0,0,5, 4,1,120, 0] ∧
    [1,0,0,0,5, 4,1,120, 0] ≠ [1,0,0,0,5, 4,3,65,46,120, 0] :=
  ⟨c6_tokens, c6_bytes, by decide⟩

/-! ## Claim C7: the assert statement -/

/-- C7: `assert cond;` does NOT jump over the abort trap. The emitted code
for `assert 1;` is PUSH_INT 1 (bytes 0-4), JZ 10 (bytes 5-9), PUSH_INT 1
(bytes 10-14), SYSCALL 0xE0 (bytes 15-16), HALT: the JZ target, patched to
`abortAddr` (10), is the address OF the abort sequence itself, and the
fall-through path reaches the same address, so the abort trap executes
whether the condition is true or false. -/
theorem C7_assert_always_aborts :
    tokenize "assert 1;" false = some c7Toks ∧
    compileBytes ⟨c7Toks, false⟩ 64 =
      some [1,0,0,0,1, 11,0,0,0,10, 1,0,0,0,1, 3,0xE0, 0] ∧
    decodeBE [1,0,0,0,1, 11,0,0,0,10, 1,0,0,0,1, 3,0xE0, 0] 6 = 10 ∧
    List.getD [1,0,0,0,1, 11,0,0,0,10, 1,0,0,0,1, 3,0xE0, 0] 10 0 = 1 ∧
    List.getD [1,0,0,0,1, 11,0,0,0,10, 1,0,0,0,1, 3,0xE0, 0] 15 0 = 3 ∧
    List.getD [1,0,0,0,1, 11,0,0,0,10, 1,0,0,0,1, 3,0xE0, 0] 16 0 = 0xE0 :=
  ⟨c7_tokens, c7_bytes, by decide, by decide, by decide, by decide⟩

/-! ## Claim C8: the function prologue -/

/-! Helper lemmas for the universal function-prologue theorem. -/

theorem PState_ite_pos (c : Prop) [Decidable c] (s : PState) (x : Nat) :
    (if c then { s with pos := x } else s) = { s with pos := if c then x else s.pos } := by
  split
  · rfl
  · rfl

theorem symSet_lookup (k : String) (v : Nat) (m : List (String × Nat)) :
    (symSet k v m).lookup k = some v := by
  induction m with
  | nil => simp [symSet, List.lookup]
  | cons p rest ih =>
    obtain ⟨k2, v2⟩ := p
    by_cases h : k2 = k
    · simp [symSet, h, List.lookup]
    · have hbe : (k == k2) = false := by simpa using Ne.symm h
      simp [symSet, h, List.lookup_cons, ih, hbe]

theorem foldl_stores (l : List String) (st : PState) :
    l.foldl (fun st a => emitString (mangle st a) (emitOp 4 st)) st =
      { st with bc := st.bc ++
          l.flatMap (fun a =>
            4 :: (mangle st a).length % 256 :: (mangle st a).data.map charByte) } := by
  induction l generalizing st with
  | nil => simp
  | cons a rest ih =>
    simp only [List.foldl_cons]
    rw [ih]
    simp [emitString, emitOp, mangle, List.flatMap_cons]

theorem PState_ite_pos2 (c : Prop) [inst : Decidable c] (bc : List Nat) (p q : Nat)
    (st : List (String × Nat)) (pfx : String) (j : List Nat) :
    (if c then PState.mk bc p st pfx j else PState.mk bc q st pfx j) =
      PState.mk bc (if c then p else q) st pfx j := by
  split
  · rfl
  · rfl

theorem set_append_shift (l l2 : List Nat) (v : Nat) (i : Nat) :
    (l ++ l2).set (l.length + i) v = l ++ l2.set i v := by
  induction l with
  | nil => simp
  | cons x xs ih =>
    have h : (x :: xs).length + i = (xs.length + i) + 1 := by
      simp
      omega
    rw [List.cons_append, h, List.set_cons_succ, ih, List.cons_append]

/-- Patching four bytes right after a PUSH_INT opcode that sits at the end
of `bc0` overwrites exactly the four operand bytes. -/
theorem patchInt_after_push (bc0 rest : List Nat) (v : Int) (p : Nat)
    (st : List (String × Nat)) (pfx : String) (j : List Nat) :
    patchInt (bc0.length + 1) v (PState.mk (bc0 ++ (1 :: encodeInt32 0 ++ rest)) p st pfx j) =
      PState.mk (bc0 ++ (1 :: encodeInt32 v ++ rest)) p st pfx j := by
  have hsh : bc0 ++ (1 :: encodeInt32 0 ++ rest) = bc0 ++ (1 :: 0 :: 0 :: 0 :: 0 :: rest) := by
    simp [encI0]
  have hv : encodeInt32 v = [(encodeInt32 v).getD 0 0, (encodeInt32 v).getD 1 0,
      (encodeInt32 v).getD 2 0, (encodeInt32 v).getD 3 0] := rfl
  simp only [patchInt, hsh]
  conv_rhs => rw [hv]
  simp [set_append_shift, Nat.add_assoc]

theorem parseDeclaration_function (n : Nat) (ctx : Ctx) (s : PState)
    (typeName : String) (p1 p2 : Nat) (name : String) (args : List String)
    (s1 : PState) (p4 p5 : Nat) (s9 : PState)
    (hr : parseTypeName ctx s.pos = (typeName, p1)) (hty : typeName ≠ "")
    (hss : starSkip ctx p1 = p2) (hb : p2 < nTokens ctx)
    (hnm : (tokAt ctx p2).value = name) (hne : name ≠ "")
    (hlt : p2 + 1 < nTokens ctx) (hlp : (tokAt ctx (p2 + 1)).type = .LPAREN)
    (hArg : argLoop n ctx { s with pos := p2 + 1 + 1 } [] = some (args, s1))
    (hp4 : p4 = if s1.pos < nTokens ctx then s1.pos + 1 else s1.pos)
    (hp5 : p5 = if p4 < nTokens ctx ∧ (tokAt ctx p4).type = .COLON then p4 + 1 else p4)
    (hBlk : parseBlock n ctx
      { bc := s1.bc ++ 1 :: encodeInt32 ((s1.bc.length + (mangle s name).length + 12 : Nat) : Int) ++
          4 :: (mangle s name).length % 256 :: (mangle s name).data.map charByte ++
          10 :: encodeInt32 0 ++
          args.reverse.flatMap (fun a =>
            4 :: (mangle s1 a).length % 256 :: (mangle s1 a).data.map charByte),
        pos := p5,
        symtab := symSet (mangle s name) (s1.bc.length + (mangle s name).length + 12) s1.symtab,
        modulePfx := s1.modulePfx,
        jumps := s1.jumps ++ [s1.bc.length + (mangle s name).length + 8] } = some s9) :
    parseDeclaration (n + 1) ctx s =
      some (patchInt (s1.bc.length + (mangle s name).length + 8)
        ((s9.bc.length + 1 : Nat) : Int) (emitOp 0x0D s9)) ∧
    (symSet (mangle s name) (s1.bc.length + (mangle s name).length + 12) s1.symtab).lookup
        (mangle s name) = some (s1.bc.length + (mangle s name).length + 12) ∧
    s1.bc.length + (mangle s name).length + 12 ≠ 0 := by
  refine ⟨?_, symSet_lookup _ _ _, by omega⟩
  have hpn : ¬ p2 ≥ nTokens ctx := by omega
  simp only [parseDeclaration, hr, hss, hnm]
  rw [if_neg hty]
  simp only [if_pos hb]
  simp only [hne, if_false, ite_false, hlt, hlp]
  simp only [and_self, ite_true]
  have hrec : PState.mk s.bc (p2 + 1 + 1) s.symtab s.modulePfx s.jumps =
      { s with pos := p2 + 1 + 1 } := rfl
  rw [hrec, hArg]
  simp only [PState_ite_pos, ← hp4]
  simp only [PState_ite_pos2, ← hp5]
  have hman : mangle (PState.mk s.bc (p2 + 1) s.symtab s.modulePfx s.jumps) name =
      mangle s name := rfl
  rw [hman]
  have hdl : ∀ str : String, str.data.length = str.length := fun _ => rfl
  have hel : ∀ v : Int, (encodeInt32 v).length = 4 := fun _ => rfl
  have h5 : emitJump 10 0 (emitString (mangle s name) (emitOp 4 (emitPushInt 0
      (PState.mk s1.bc p5 s1.symtab s1.modulePfx s1.jumps)))) =
    PState.mk (s1.bc ++ 1 :: encodeInt32 0 ++ 4 :: (mangle s name).length % 256 ::
        (mangle s name).data.map charByte ++ 10 :: encodeInt32 0)
      p5 s1.symtab s1.modulePfx
      (s1.jumps ++ [s1.bc.length + (mangle s name).length + 8]) := by
    simp [emitJump, noteJump, emitInt, emitOp, emitString, emitPushInt,
      List.append_assoc, hdl, hel]
    try omega
  rw [h5]
  simp only [List.append_assoc]
  rw [patchInt_after_push, foldl_stores]
  have hlen1 : (s1.bc ++ (1 :: encodeInt32 0 ++ (4 :: (mangle s name).length % 256 ::
      List.map charByte (mangle s name).data ++ 10 :: encodeInt32 0))).length =
      s1.bc.length + (mangle s name).length + 12 := by
    simp [hdl, hel]
    omega
  rw [hlen1]
  simp only [mangle, List.append_assoc] at hBlk ⊢
  rw [hBlk]
  have hA : (emitString (if s.modulePfx = "" then name else s.modulePfx ++ name)
      (emitOp 4 (emitPushInt 0
        (PState.mk s1.bc p5 s1.symtab s1.modulePfx s1.jumps)))).bc.length + 1 =
      s1.bc.length + (if s.modulePfx = "" then name else s.modulePfx ++ name).length + 8 := by
    simp [hdl, hel]
    omega
  have hV : ((emitOp 13 s9).bc.length : Int) = ((s9.bc.length + 1 : Nat) : Int) := by
    simp
  simp only [hA, hV]

/-- The full compiler state on the two-parameter function: bytecode as
before, final position 12, the symbol table binding `f` to its body
offset 13, and the recorded skip-jump operand offset 9. -/
theorem c8b_state :
    compileTok ⟨c8bToks, false⟩ 64 =
      some (PState.mk [1,0,0,0,13, 4,1,102, 10,0,0,0,20, 4,1,98, 4,1,97, 13, 0]
        12 [("f", 13)] "" [9]) := by
  simp [c8bToks, tk, List.getD, List.lookup, List.set,
    encI0, encI13, encI20, sdf, slf, cbf, sda, sla, cba, sdb, slb, cbb]

/-- C8 (amended): for EVERY function declaration that the parser accepts
(type name, optional stars, a nonempty name, a parenthesised parameter
list and a body), `parseDeclaration` emits the documented prologue with
one correction — the leading STORE's PUSH_INT operand is back-patched to
the body entry offset (`startPlace + |sym| + 12`, never zero), not left
zero-valued. The entry offset is recorded in the symbol table under the
mangled name before the body is parsed (so recursive calls resolve), the
parameters are popped by STOREs in reverse declaration order
(`args.reverse`), the body is followed by RET (0x0D) and the skip JMP's
operand is back-patched to the offset after the RET. The two-parameter
concrete run instantiates every part. -/
theorem C8_function_prologue :
    (∀ (n : Nat) (ctx : Ctx) (s : PState) (typeName : String) (p1 p2 : Nat)
      (name : String) (args : List String) (s1 : PState) (p4 p5 : Nat) (s9 : PState),
      parseTypeName ctx s.pos = (typeName, p1) → typeName ≠ "" →
      starSkip ctx p1 = p2 → p2 < nTokens ctx →
      (tokAt ctx p2).value = name → name ≠ "" →
      p2 + 1 < nTokens ctx → (tokAt ctx (p2 + 1)).type = .LPAREN →
      argLoop n ctx { s with pos := p2 + 1 + 1 } [] = some (args, s1) →
      p4 = (if s1.pos < nTokens ctx then s1.pos + 1 else s1.pos) →
      p5 = (if p4 < nTokens ctx ∧ (tokAt ctx p4).type = .COLON then p4 + 1 else p4) →
      parseBlock n ctx
        { bc := s1.bc ++ 1 :: encodeInt32 ((s1.bc.length + (mangle s name).length + 12 : Nat) : Int) ++
            4 :: (mangle s name).length % 256 :: (mangle s name).data.map charByte ++
            10 :: encodeInt32 0 ++
            args.reverse.flatMap (fun a =>
              4 :: (mangle s1 a).length % 256 :: (mangle s1 a).data.map charByte),
          pos := p5,
          symtab := symSet (mangle s name) (s1.bc.length + (mangle s name).length + 12) s1.symtab,
          modulePfx := s1.modulePfx,
          jumps := s1.jumps ++ [s1.bc.length + (mangle s name).length + 8] } = some s9 →
      parseDeclaration (n + 1) ctx s =
        some (patchInt (s1.bc.length + (mangle s name).length + 8)
          ((s9.bc.length + 1 : Nat) : Int) (emitOp 0x0D s9)) ∧
      (symSet (mangle s name) (s1.bc.length + (mangle s name).length + 12) s1.symtab).lookup
          (mangle s name) = some (s1.bc.length + (mangle s name).length + 12) ∧
      s1.bc.length + (mangle s name).length + 12 ≠ 0) ∧
    tokenize "int f(int a, int b) \x7bpass\x7d" false = some c8bToks ∧
    compileTok ⟨c8bToks, false⟩ 64 =
      some (PState.mk [1,0,0,0,13, 4,1,102, 10,0,0,0,20, 4,1,98, 4,1,97, 13, 0] 12 [("f", 13)] "" [9]) ∧
    decodeBE [1,0,0,0,13, 4,1,102, 10,0,0,0,20, 4,1,98, 4,1,97, 13, 0] 1 = 13 ∧
    decodeBE [1,0,0,0,13, 4,1,102, 10,0,0,0,20, 4,1,98, 4,1,97, 13, 0] 9 = 20 ∧
    List.drop 13 [1,0,0,0,13, 4,1,102, 10,0,0,0,20, 4,1,98, 4,1,97, 13, 0] =
      [4, 1, charByte 'b', 4, 1, charByte 'a', 13, 0] ∧
    List.getD [1,0,0,0,13, 4,1,102, 10,0,0,0,20, 4,1,98, 4,1,97, 13, 0] 19 0 = 13 ∧
    List.length [1,0,0,0,13, 4,1,102, 10,0,0,0,20, 4,1,98, 4,1,97, 13, 0] = 21 ∧
    List.lookup "f" [("f", 13)] = some 13 :=
  ⟨parseDeclaration_function, c8b_tokens, c8b_state, by decide, by decide,
   by decide, by decide, by decide, by decide⟩

/-- The universal prologue theorem applied to the concrete two-parameter
declaration (every hypothesis discharged by computation): the symbol table
the body is parsed under binds the mangled name to the body offset. -/
theorem C8_function_prologue_witness :
    (symSet (mangle (PState.mk [] 0 [] "" []) "f")
        ((PState.mk [] 8 [] "" []).bc.length +
          (mangle (PState.mk [] 0 [] "" []) "f").length + 12)
        (PState.mk [] 8 [] "" []).symtab).lookup
      (mangle (PState.mk [] 0 [] "" []) "f") =
      some ((PState.mk [] 8 [] "" []).bc.length +
        (mangle (PState.mk [] 0 [] "" []) "f").length + 12) :=
  (C8_function_prologue.1 62 ⟨c8bToks, false⟩ (PState.mk [] 0 [] "" []) "int" 1 1 "f"
    ["a", "b"] (PState.mk [] 8 [] "" []) 9 9
    (PState.mk [1,0,0,0,13, 4,1,102, 10,0,0,0,0, 4,1,98, 4,1,97] 12 [("f", 13)] "" [9])
    (by decide) (by decide) (by decide) (by decide) (by decide) (by decide)
    (by decide) (by decide) (by decide) (by decide) (by decide) (by decide)).2.1

/-- Refutation of the zero-valued-STORE part of C8: even for a
parameterless function the leading PUSH_INT's operand is 13 (the patched
body offset), not zero. -/
theorem C8_counterexample :
    tokenize "int f() \x7bpass\x7d" false = some c8aToks ∧
    compileBytes ⟨c8aToks, false⟩ 64 =
      some [1,0,0,0,13, 4,1,102, 10,0,0,0,14, 13, 0] ∧
    decodeBE [1,0,0,0,13, 4,1,102, 10,0,0,0,14, 13, 0] 1 = 13 ∧ (13 : Nat) ≠ 0 :=
  ⟨c8a_tokens, c8a_bytes, by decide, by decide⟩

/-! ## Claim C10: non-termination of the parameter loop -/

/-- On the token stream of `int f(;` the parameter loop of
`Compiler::parseDeclaration` never advances: at position 3 the SEMICOLON
is neither a RPAREN (so the loop continues) nor a type name, star,
identifier or comma (so nothing moves the position), and the loop body
repeats with an identical state forever. -/
theorem argLoop_c10_stall (n : Nat) (s : PState) (args : List String)
    (h : s.pos = 3) :
    argLoop n ⟨[{ type := .KEYWORD, value := "int", line := 1 },
      { type := .IDENTIFIER, value := "f", line := 1 },
      { type := .LPAREN, value := "(", line := 1 },
      { type := .SEMICOLON, value := ";", line := 1 },
      { type := .END_OF_FILE, value := "", line := 1 }], false⟩ s args = none := by
  induction n generalizing s args with
  | zero => rfl
  | succ n ih =>
    simp [h, List.getD]
    apply ih
    simp

/-- C10: `Compiler::compile` does not terminate on every END_OF_FILE
terminated token list: on the tokens of `int f(;` the fueled model returns
no result for ANY amount of fuel, mirroring the C++ infinite loop in the
parameter-parsing loop of `parseDeclaration`. -/
theorem C10_compile_diverges :
    tokenize "int f(;" false = some c10Tokens ∧
    compileDiverges ⟨c10Tokens, false⟩ := by
  refine ⟨c10_tokens, ?_⟩
  intro fuel
  obtain _ | fuel := fuel
  · rfl
  obtain _ | fuel := fuel
  · rfl
  obtain _ | fuel := fuel
  · rfl
  simp [c10Tokens, List.getD, List.lookup, argLoop_c10_stall]

/-! ## Claim C1: constant folding -/

/-- C1 (amended): the peephole fold is sound where it is defined — two
adjacent PUSH_INT instructions followed by a binary operator collapse to
one PUSH_INT of `foldConst`'s value — and the fold is disabled exactly
when `foldConst` is undefined, which for `/` and `%` happens exactly when
the (decoded) right VALUE is zero, literal or not; the two concrete
scenarios of the claim hold: `int x = 2 + 3 * 4;` compiles to a single
PUSH_INT 14 followed by STORE x, and `int x = 10 / 0;` keeps both pushes
and the DIV opcode (9). -/
theorem C1_fold_semantics :
    (∀ ty (bc0 : List Nat) (a b r : Int), foldConst ty (wrap32 a) (wrap32 b) = some r →
      emitBinaryOp ty (bc0 ++ 1 :: encodeInt32 a ++ 1 :: encodeInt32 b) =
        bc0 ++ 1 :: encodeInt32 r) ∧
    (∀ ty (bc0 : List Nat) (a b : Int) (op : Nat),
      foldConst ty (wrap32 a) (wrap32 b) = none → binOpByte ty = some op →
      emitBinaryOp ty (bc0 ++ 1 :: encodeInt32 a ++ 1 :: encodeInt32 b) =
        (bc0 ++ 1 :: encodeInt32 a ++ 1 :: encodeInt32 b) ++ [op]) ∧
    (∀ v1 v2 : Int, foldConst .SLASH v1 v2 = none ↔ v2 = 0) ∧
    (∀ v1 v2 : Int, foldConst .MOD v1 v2 = none ↔ v2 = 0) ∧
    compileSrc "int x = 2 + 3 * 4;" false 64 = some [1,0,0,0,14, 4,1,120, 0] ∧
    compileSrc "int x = 10 / 0;" false 64 =
      some [1,0,0,0,10, 1,0,0,0,0, 9, 4,1,120, 0] :=
  ⟨emitBinaryOp_fold, emitBinaryOp_nofold, foldConst_slash_none_iff,
   foldConst_mod_none_iff,
   by unfold compileSrc; rw [c1a_tokens]; exact c1a_bytes,
   by unfold compileSrc; rw [c1b_tokens]; exact c1b_bytes⟩

/-- The fold theorem applied at a concrete input: `1 + 2` folds to a
single PUSH_INT 3. -/
theorem C1_fold_semantics_witness :
    emitBinaryOp .PLUS ([] ++ 1 :: encodeInt32 1 ++ 1 :: encodeInt32 2) =
      [] ++ 1 :: encodeInt32 3 :=
  C1_fold_semantics.1 .PLUS [] 1 2 3 (by decide)

/-- Refutation of the "disabled when and only when the right operand is
the literal zero" part of C1: in `int x = 6 / (1 - 1);` no INTEGER token
is the literal `0`, yet the fold of the division is disabled (its computed
right value is zero) and the DIV opcode 9 is emitted after two pushes. -/
theorem C1_counterexample :
    tokenize "int x = 6 / (1 - 1);" false = some c1cToks ∧
    compileBytes ⟨c1cToks, false⟩ 64 =
      some [1,0,0,0,6, 1,0,0,0,0, 9, 4,1,120, 0] ∧
    c1cToks.all (fun t => !(t.type == TokenType.INTEGER && t.value == "0")) = true ∧
    List.getD [1,0,0,0,6, 1,0,0,0,0, 9, 4,1,120, 0] 10 0 = 9 :=
  ⟨c1c_tokens, c1c_bytes, by decide, by decide⟩

end Casm

namespace Casm

/-! ## Claim C9: string operand encoding -/

/-- A non-backslash head passes through `processEscapes` unchanged. -/
theorem processEscapes_cons (c : Char) (l : List Char) (h : c ≠ '\\') :
    processEscapes (c :: l) = c :: processEscapes l :=
  processEscapes.eq_3 c l (fun _ _ hc _ => absurd hc h)

/-- `processEscapes` is the identity on runs of a non-backslash character. -/
theorem processEscapes_replicate (n : Nat) (c : Char) (h : c ≠ '\\') :
    processEscapes (List.replicate n c) = List.replicate n c := by
  induction n with
  | zero => rfl
  | succ n ih => rw [List.replicate_succ, processEscapes_cons c _ h, ih]

theorem emitString_bc (str : String) (s : PState) :
    (emitString str s).bc = s.bc ++ str.length % 256 :: str.data.map charByte := by
  simp

theorem emitStringLiteral_bc (str : String) (s : PState) :
    (emitStringLiteral str s).bc =
      s.bc ++ (processEscapes str.data).length % 256 ::
        (processEscapes str.data).map charByte := by
  simp

theorem strlen_mod_iff (str : String) :
    str.length % 256 = (str.data.map charByte).length ↔ str.length < 256 := by
  rw [List.length_map]
  have hd : str.data.length = str.length := rfl
  rw [hd]
  constructor
  · intro h
    have h2 : str.length % 256 < 256 := Nat.mod_lt _ (by omega)
    omega
  · intro h
    exact Nat.mod_eq_of_lt h

theorem c9_tokens : tokenize c9src false = some c9Toks := rfl

theorem c9_bytes :
    compileBytes ⟨c9Toks, false⟩ 64 =
      some (2 :: 44 :: (List.replicate 300 97 ++ [0])) := by
  simp [c9Toks, tk, List.getD, List.lookup]
  decide

/-- C9 (amended): every string operand is emitted as `length % 256`
followed by ALL the raw bytes of the (escape-processed) string: the
one-byte prefix is the length reduced mod 256, and it equals the number of
raw bytes that follow exactly when the string is shorter than 256
characters; nothing caps the emitted operand at 255 bytes, as the
300-character PUSH_STR (prefix byte 44, 300 raw bytes) shows. -/
theorem C9_string_operands :
    (∀ (str : String) (s : PState), (emitString str s).bc =
      s.bc ++ str.length % 256 :: str.data.map charByte) ∧
    (∀ (str : String) (s : PState), (emitStringLiteral str s).bc =
      s.bc ++ (processEscapes str.data).length % 256 ::
        (processEscapes str.data).map charByte) ∧
    (∀ str : String,
      str.length % 256 = (str.data.map charByte).length ↔ str.length < 256) ∧
    compileSrc c9src false 64 = some (2 :: 44 :: (List.replicate 300 97 ++ [0])) :=
  ⟨emitString_bc, emitStringLiteral_bc, strlen_mod_iff, by
    unfold compileSrc
    rw [c9_tokens]
    exact c9_bytes⟩

/-- Refutation of the length-prefix-equals-count and 255-cap parts of C9:
the 300-character string literal is emitted as PUSH_STR with prefix byte
44 (= 300 mod 256) followed by 300 raw bytes. -/
theorem C9_counterexample :
    tokenize c9src false = some c9Toks ∧
    compileBytes ⟨c9Toks, false⟩ 64 =
      some (2 :: 44 :: (List.replicate 300 97 ++ [0])) ∧
    (List.replicate (300 : Nat) (97 : Nat)).length = 300 ∧
    (44 : Nat) ≠ 300 ∧ ¬ (300 : Nat) ≤ 255 :=
  ⟨c9_tokens, c9_bytes, by simp, by decide, by decide⟩

/-! ## Claim C5: unresolved import and include directives -/

/-- When every candidate path of a directive either is already in the
included list or does not resolve to a file, the candidate loop of
`preprocess` succeeds with NO output bytes and an unchanged included list
(lines 857-874: `found` stays false and nothing is appended). -/
theorem tryCands_noop (fs : List (String × String)) (isImp : Bool) (mod : String)
    (inc included : List String) :
    ∀ (cands : List (String × String)) (n : Nat), cands.length < n →
      (∀ c ∈ cands, included.contains c.2 = true ∨ fs.lookup c.2 = none) →
      tryCandsF n fs isImp mod inc included cands = some ("", included) := by
  intro cands
  induction cands with
  | nil =>
    intro n hn _
    obtain _ | n := n
    · exact absurd hn (by omega)
    · rfl
  | cons c rest ih =>
    intro n hn h
    obtain _ | n := n
    · exact absurd hn (by omega)
    · obtain ⟨path, full⟩ := c
      rcases h (path, full) (by simp) with hin | hmiss
      · have hin2 : full ∈ included := by simpa using hin
        simp [tryCandsF, hin2]
      · by_cases hin2 : full ∈ included
        · simp [tryCandsF, hin2]
        · simp [tryCandsF, hin2, hmiss]
          exact ih n (by simp at hn; omega) (fun c hc => h c (by simp [hc]))

theorem c5_include_run :
    preprocessF 40 [] "#include \"nosuch.h\"\nint x;" "." [] [] =
      some ("int x;\n", []) := by decide

theorem c5_import_run :
    preprocessF 40 [] "import missing\nint y;" "." [] [] =
      some ("int y;\n", []) := by decide

/-- C5 (amended): an unresolved `#include` and an unresolved `import` are
treated identically — the directive line disappears from the expanded
output entirely (no comment, no bytes, no change to the included list),
because the all-miss candidate loop returns the empty string. -/
theorem C5_unresolved_dropped :
    (∀ (fs : List (String × String)) (isImp : Bool) (mod : String)
      (inc included : List String) (cands : List (String × String)) (n : Nat),
      cands.length < n →
      (∀ c ∈ cands, included.contains c.2 = true ∨ fs.lookup c.2 = none) →
      tryCandsF n fs isImp mod inc included cands = some ("", included)) ∧
    preprocessF 40 [] "#include \"nosuch.h\"\nint x;" "." [] [] =
      some ("int x;\n", []) ∧
    preprocessF 40 [] "import missing\nint y;" "." [] [] = some ("int y;\n", []) :=
  ⟨fun fs isImp mod inc included cands n hn h =>
      tryCands_noop fs isImp mod inc included cands n hn h,
   c5_include_run, c5_import_run⟩

/-- The all-miss lemma applied at a concrete input: with an empty
filesystem, the include candidates of `nosuch.h` all miss and the loop
returns no bytes. -/
theorem C5_unresolved_dropped_witness :
    tryCandsF 40 [] false "nosuch.h" [] [] (candidatesOf "nosuch.h" "." []) =
      some ("", []) :=
  C5_unresolved_dropped.1 [] false "nosuch.h" [] [] (candidatesOf "nosuch.h" "." [])
    40 (by decide) (by decide)

/-- Refutation of the kept-as-comment part of C5: the expanded output of a
file whose `#include` resolves nowhere contains neither the directive nor
any comment — it is exactly the remaining source line. -/
theorem C5_counterexample :
    preprocessF 40 [] "#include \"nosuch.h\"\nint x;" "." [] [] =
      some ("int x;\n", []) ∧
    strContains "int x;\n" "nosuch" = false ∧
    strContains "int x;\n" "//" = false :=
  ⟨c5_include_run, by decide, by decide⟩

end Casm

namespace Casm

/-! ## Claim C4: idempotent import -/

/-- The concrete diamond: `main` imports `B` and `C`; `B` and `C` both
pull in `D`. Every file's content appears once in the expansion (`D`
inside `B`, its first importer) and each resolved path enters the included
list exactly once. -/
theorem c4_run :
    preprocessF 40 c4fs "import B\nimport C" "." [] [] =
      some ("__module__ B\n__module__ D\nddd;\n\n__endmodule__\nbbb;\n\n" ++
              "__endmodule__\n__module__ C\nccc;\n\n__endmodule__\n",
            ["./B.soul", "./D.soul", "./C.soul"]) := by decide

/-- Fuel-indexed conjunction of the no-duplicates invariant for the three
mutually recursive preprocessor functions: a run started with a
duplicate-free included list ends with a duplicate-free included list
(`tryCandsF` appends a path only after checking `included.contains`). -/
theorem preprocess_nodup (n : Nat) :
    (∀ fs src dir inc included out, preprocessF n fs src dir inc included = some out →
      included.Nodup → out.2.Nodup) ∧
    (∀ fs lines dir inc acc included out,
      lineLoopF n fs lines dir inc acc included = some out →
      included.Nodup → out.2.Nodup) ∧
    (∀ fs isImp mod inc included cands out,
      tryCandsF n fs isImp mod inc included cands = some out →
      included.Nodup → out.2.Nodup) := by
  induction n with
  | zero =>
    refine ⟨?_, ?_, ?_⟩
    · intro _ _ _ _ _ _ h _
      exact Option.noConfusion h
    · intro _ _ _ _ _ _ _ h _
      exact Option.noConfusion h
    · intro _ _ _ _ _ _ _ h _
      exact Option.noConfusion h
  | succ n ih =>
    obtain ⟨ihP, ihL, ihT⟩ := ih
    refine ⟨?_, ?_, ?_⟩
    · intro fs src dir inc included out h hnd
      exact ihL fs (getlineSplit src) dir inc "" included out h hnd
    · intro fs lines dir inc acc included out h hnd
      cases lines with
      | nil =>
        simp only [lineLoopF] at h
        injection h with h
        subst h
        exact hnd
      | cons line rest =>
        simp only [lineLoopF] at h
        by_cases hd : ("import ".data.isPrefixOf line.data ∨
            "#include".data.isPrefixOf line.data)
        · rw [if_pos hd] at h
          rcases hEx : extractMod line ("import ".data.isPrefixOf line.data)
              with _ | mod
          · simp only [hEx] at h
            exact ihL _ _ _ _ _ _ _ h hnd
          · simp only [hEx] at h
            by_cases hel : elisionSet.contains mod
            · rw [if_pos hel] at h
              exact ihL _ _ _ _ _ _ _ h hnd
            · rw [if_neg hel] at h
              rcases hT : tryCandsF n fs ("import ".data.isPrefixOf line.data) mod
                  inc included (candidatesOf mod dir inc) with _ | r
              · simp only [hT] at h
                exact Option.noConfusion h
              · simp only [hT] at h
                exact ihL _ _ _ _ _ _ _ h (ihT _ _ _ _ _ _ _ hT hnd)
        · rw [if_neg hd] at h
          exact ihL _ _ _ _ _ _ _ h hnd
    · intro fs isImp mod inc included cands out h hnd
      cases cands with
      | nil =>
        simp only [tryCandsF] at h
        injection h with h
        subst h
        exact hnd
      | cons c rest =>
        obtain ⟨path, full⟩ := c
        simp only [tryCandsF] at h
        by_cases hin : included.contains full
        · rw [if_pos hin] at h
          injection h with h
          subst h
          exact hnd
        · rw [if_neg hin] at h
          rcases hlk : List.lookup full fs with _ | content
          · simp only [hlk] at h
            exact ihT _ _ _ _ _ _ _ h hnd
          · simp only [hlk] at h
            rcases hP : preprocessF n fs content path inc (included ++ [full])
                with _ | r
            · simp only [hP] at h
              exact Option.noConfusion h
            · simp only [hP] at h
              have hni : full ∉ included := by simpa using hin
              have hnd2 : (included ++ [full]).Nodup := by
                simp [List.nodup_append, hnd, hni]
              have hr2 := ihP _ _ _ _ _ _ hP hnd2
              split_ifs at h
              · injection h with h
                subst h
                exact hr2
              · injection h with h
                subst h
                exact hr2

/-- C4: the included set stays duplicate-free across any preprocessor run
(so a resolved path appears in it at most once), a candidate whose full
path is already included makes the whole directive a no-op producing no
bytes, and in the concrete diamond (`main` imports `B` and `C`, both of
which import `D`) every module body appears exactly once in the expansion
and the included list holds each resolved path once. -/
theorem C4_import_idempotent :
    (∀ n fs src dir inc included out, preprocessF n fs src dir inc included = some out →
      included.Nodup → out.2.Nodup) ∧
    (∀ (n : Nat) fs isImp mod inc (included : List String) path full rest,
      included.contains full →
      tryCandsF (n+1) fs isImp mod inc included ((path, full) :: rest) =
        some ("", included)) ∧
    preprocessF 40 c4fs "import B\nimport C" "." [] [] =
      some ("__module__ B\n__module__ D\nddd;\n\n__endmodule__\nbbb;\n\n" ++
              "__endmodule__\n__module__ C\nccc;\n\n__endmodule__\n",
            ["./B.soul", "./D.soul", "./C.soul"]) ∧
    (["./B.soul", "./D.soul", "./C.soul"] : List String).Nodup :=
  ⟨fun n => (preprocess_nodup n).1,
   fun n fs isImp mod inc included path full rest hin => by
     simp only [tryCandsF]
     rw [if_pos hin],
   c4_run, by decide⟩

/-- The invariant applied to the concrete diamond run: starting from the
empty (trivially duplicate-free) included list, the final included list is
duplicate-free. -/
theorem C4_import_idempotent_witness :
    (["./B.soul", "./D.soul", "./C.soul"] : List String).Nodup :=
  C4_import_idempotent.1 40 c4fs "import B\nimport C" "." [] []
    ("__module__ B\n__module__ D\nddd;\n\n__endmodule__\nbbb;\n\n" ++
       "__endmodule__\n__module__ C\nccc;\n\n__endmodule__\n",
     ["./B.soul", "./D.soul", "./C.soul"]) c4_run (by decide)

end Casm

namespace Casm

/-! ## Claim C3: a back-patched jump operand corrupted by the peephole -/

theorem c3_tokens : tokenize c3src false = some c3Toks := rfl

/-- The full compiler state on `c3src`: the `if`/`else` back-patching
records operand offsets 256 (the JZ) and 261 (the skip JMP), and the
trailing `"x" * 5` statement triggers the peephole on a window that
straddles the JMP operand: bytes 259-268 (`1,9,10,0,0` `1,0,0,0,5`) look
like two PUSH_INT instructions, are cut, and a PUSH_INT of the garbage
product 755631960 (`45,10,7,88`) is emitted instead, leaving the JMP
operand bytes at 261-264 reading `0,1,45,10`. -/
theorem c3_state :
    compileTok ⟨c3Toks, false⟩ 64 =
      some { bc := 2 :: 248 :: (List.replicate 248 122 ++
               [1,0,0,0,1, 11,0,0,1,9, 10,0,0, 1,45,10,7,88, 0]),
             pos := 17, symtab := [], modulePfx := "", jumps := [256, 261] } := by
  simp [c3Toks, tk, List.getD, List.lookup]
  decide

/-- C3: after compilation of `c3src` completes, the recorded jump-operand
offset 261 (the skip JMP of the `if`/`else`, back-patched to 265 before
the peephole ran) holds the big-endian value 301, which is NOT a valid
offset of the 269-byte bytecode buffer: the artifact is written with a
jump target past the end of the program. -/
theorem C3_jump_out_of_range :
    tokenize c3src false = some c3Toks ∧
    compileTok ⟨c3Toks, false⟩ 64 =
      some { bc := 2 :: 248 :: (List.replicate 248 122 ++
               [1,0,0,0,1, 11,0,0,1,9, 10,0,0, 1,45,10,7,88, 0]),
             pos := 17, symtab := [], modulePfx := "", jumps := [256, 261] } ∧
    decodeBE (2 :: 248 :: (List.replicate 248 122 ++
      [1,0,0,0,1, 11,0,0,1,9, 10,0,0, 1,45,10,7,88, 0])) 261 = 301 ∧
    (2 :: 248 :: (List.replicate 248 122 ++
      [1,0,0,0,1, 11,0,0,1,9, 10,0,0, 1,45,10,7,88, 0])).length = 269 ∧
    ¬ (301 : Nat) < 269 :=
  ⟨c3_tokens, c3_state, by decide, by decide, by decide⟩

end Casm
